import Mathlib

/-!
Verification of the QuantNexus backtesting engine against its specification.

The Python sources are shallowly embedded over exact rational arithmetic:

* `src/System.app/server/python/backtester.py` — tree evaluator, simulator,
  metrics assembly (`Backtester` class);
* `src/System.app/server/python/optimized_metrics.py` — JIT metric kernels;
* `src/System.app/server/python/indicator_cache.py` — memoization cache;
* `src/System.app/server/python/optimized_indicators.py` — indicator kernels
  used by the cache (the `USE_NUMBA = True` configuration);
* `src/python/flowchart_branch_generator.py` — parameter sweep enumeration.

Modelling conventions:

* Python floats are modelled by `ℚ`; the two genuinely transcendental
  operations (`x ** e` in CAGR and `sqrt` in deviation-based metrics) are
  passed in as explicit function parameters, and the theorems below hold for
  every choice of those parameters.
* IEEE NaN, which appears in indicator warm-up positions, is modelled by
  `Option ℚ` (`none` = NaN) with Python's comparison semantics (every
  comparison against NaN is false).
* Python dicts are association lists in insertion order; `dictSet` updates
  the existing entry in place or appends, exactly like dict assignment, and
  `dictBeq` is Python's order-insensitive `dict.__eq__`.
* The per-bar indicator cache of `Backtester._metric_at` memoizes a pure
  computation and is dropped from the state; the global `IndicatorCache`
  fallback is modelled in the `indicator_cache = None` configuration of the
  `Backtester` constructor, so `_metric_at` computes indicators locally.
-/

namespace QuantNexus

abbrev Ticker := String

/-- Value of a float series entry; `none` models IEEE NaN. -/
abbrev QF := Option ℚ

/-- Python dict lookup with numeric default 0 (`m.get(k, 0)`). -/
def dictGet (m : List (Ticker × ℚ)) (k : Ticker) : ℚ :=
  (m.lookup k).getD 0

/-- Python dict assignment `m[k] = v`: update the (unique) existing entry in
place, otherwise append at the end (insertion order). -/
def dictSet {β : Type} : List (Ticker × β) → Ticker → β → List (Ticker × β)
  | [], k, v => [(k, v)]
  | p :: rest, k, v => if p.1 = k then (p.1, v) :: rest else p :: dictSet rest k v

/-- `m[k] = m.get(k, 0) + v`, the accumulation pattern used to merge
allocations in `backtester.py`. -/
def dictAdd (m : List (Ticker × ℚ)) (k : Ticker) (v : ℚ) : List (Ticker × ℚ) :=
  dictSet m k (dictGet m k + v)

/-- Python `dict.__eq__`: same key set, equal values (order-insensitive).
Sound for the duplicate-free lists produced by `dictSet`/`dictAdd`. -/
def dictBeq (a b : List (Ticker × ℚ)) : Bool :=
  a.all (fun p => b.lookup p.1 == some p.2) && b.all (fun p => a.lookup p.1 == some p.2)

/-- An allocation: Python dict from ticker to weight. -/
abbrev Alloc := List (Ticker × ℚ)

/-- The `altExit` node-state dict `ctx['altExit_state']`. -/
abbrev AState := List (String × Bool)

/-- Boolean-valued dict assignment for the node-state map. -/
def stateSet : AState → String → Bool → AState
  | [], k, v => [(k, v)]
  | p :: rest, k, v => if p.1 = k then (p.1, v) :: rest else p :: stateSet rest k v

/-- `ticker.upper().strip()` from the Python sources: upper-case every
character, then drop whitespace from both ends (spelled out over the
character list so that it evaluates by kernel reduction). -/
def pyTicker (s : String) : String :=
  ⟨(((s.data.map Char.toUpper).dropWhile (fun c => c.isWhitespace)).reverse.dropWhile
      (fun c => c.isWhitespace)).reverse⟩

/- NaN-aware float arithmetic (`none` = NaN, absorbing). Division by zero is
also mapped to NaN; every place the sources divide, the denominator is either
guarded or nonzero. -/

def qfAdd : QF → QF → QF
  | some a, some b => some (a + b)
  | _, _ => none

def qfSub : QF → QF → QF
  | some a, some b => some (a - b)
  | _, _ => none

def qfMul : QF → QF → QF
  | some a, some b => some (a * b)
  | _, _ => none

def qfDiv : QF → QF → QF
  | some a, some b => if b = 0 then none else some (a / b)
  | _, _ => none

/-- Python `x > y` on floats: false when either side is NaN. -/
def qfGtB : QF → QF → Bool
  | some a, some b => decide (b < a)
  | _, _ => false

/-- Python `x < y` on floats: false when either side is NaN. -/
def qfLtB : QF → QF → Bool
  | some a, some b => decide (a < b)
  | _, _ => false

/-- Python `x == 0` on floats: false when x is NaN. -/
def qfEqZeroB : QF → Bool
  | some a => decide (a = 0)
  | none => false

/-- `np.mean` of a list; the empty mean is NaN. -/
def qfMean (xs : List ℚ) : QF :=
  if xs.length = 0 then none else some (xs.sum / xs.length)

/-- A safe positional list update: `l.set i v` is a no-op out of bounds.
In-bounds by construction at every call site reachable from the claims. -/
def listSet {α : Type} (l : List α) (i : Nat) (v : α) : List α := l.set i v

/-! ### Indicators computed locally by `Backtester._metric_at`
(`backtester.py` lines 210-263). Warm-up positions hold NaN. -/

/-- `Backtester.calculate_rsi` (Wilder smoothing); the output before index
`period` is the `np.full(len, nan)` initial fill. -/
def calculateRsi (prices : List ℚ) (period : Int) : List QF :=
  let n := prices.length
  let p := period.toNat
  let pQ : ℚ := p
  let deltas := List.zipWith (fun a b => b - a) prices prices.tail
  let gains := deltas.map (fun d => if d > 0 then d else 0)
  let losses := deltas.map (fun d => if d < 0 then -d else 0)
  let avgGain0 := qfMean (gains.take p)
  let avgLoss0 := qfMean (losses.take p)
  let rsiOf : QF → QF → QF := fun ag al =>
    if qfEqZeroB al then some 100
    else qfSub (some 100) (qfDiv (some 100) (qfAdd (some 1) (qfDiv ag al)))
  let base := listSet (List.replicate n (none : QF)) p (rsiOf avgGain0 avgLoss0)
  let final := (List.range' (p + 1) (n - (p + 1))).foldl
    (fun (st : List QF × QF × QF) i =>
      let ag := qfDiv (qfAdd (qfMul st.2.1 (some (pQ - 1))) (some (gains.getD (i - 1) 0))) (some pQ)
      let al := qfDiv (qfAdd (qfMul st.2.2 (some (pQ - 1))) (some (losses.getD (i - 1) 0))) (some pQ)
      (listSet st.1 i (rsiOf ag al), ag, al))
    (base, avgGain0, avgLoss0)
  final.1

/-- `Backtester.calculate_sma`: positions before `period - 1` are NaN. -/
def calculateSma (prices : List ℚ) (period : Int) : List QF :=
  let n := prices.length
  let p := period.toNat
  (List.range n).map fun i =>
    if 1 ≤ p ∧ p - 1 ≤ i then some ((((prices.drop (i + 1 - p)).take p).sum) / (p : ℚ))
    else none

/-- `Backtester.calculate_ema`: seeded with the SMA of the first `period`
values, positions before `period - 1` are NaN. -/
def calculateEma (prices : List ℚ) (period : Int) : List QF :=
  let n := prices.length
  let p := period.toNat
  let alpha : ℚ := 2 / ((p : ℚ) + 1)
  let seed := qfMean (prices.take p)
  let base := listSet (List.replicate n (none : QF)) (p - 1) seed
  let final := (List.range' p (n - p)).foldl
    (fun (st : List QF × QF) i =>
      let v := qfAdd (some (prices.getD i 0 * alpha)) (qfMul st.2 (some (1 - alpha)))
      (listSet st.1 i v, v))
    (base, seed)
  final.1

/-- The aligned price database built by `build_price_database`; only the
fields consumed by the simulator and metrics engine are modelled. -/
structure Db where
  dates : List Int
  close : List (Ticker × List ℚ)

/-- The indicator dispatch at the bottom of `Backtester._metric_at`
(the local-calculation fallback; unsupported metric names fall back to the
price series itself). -/
def metricSeries (metric : String) (window : Int) (prices : List ℚ) : List QF :=
  if metric = "Relative Strength Index" then calculateRsi prices window
  else if metric = "Simple Moving Average" then calculateSma prices window
  else if metric = "Exponential Moving Average" then calculateEma prices window
  else prices.map some

/-- `Backtester._metric_at`: `none` when the ticker has no price data or the
index is out of range; `some none` when the series holds NaN there. -/
def metricAt (db : Db) (idx : Nat) (ticker metric : String) (window : Int) : Option QF :=
  match db.close.lookup ticker with
  | none => none
  | some prices =>
    let values := metricSeries metric window prices
    if idx < values.length then some (values.getD idx none) else none

/-! ### Conditions (`backtester.py` lines 747-833) -/

/-- One condition dict; optional fields mirror `cond.get(key, default)`
with the defaults applied at the use sites exactly as in the source. -/
structure Cond where
  ctype : Option String := none
  metric : Option String := none
  ticker : Option String := none
  window : Option Int := none
  threshold : Option ℚ := none
  comparator : Option String := none
  expanded : Bool := false
  rightTicker : Option String := none
  rightMetric : Option String := none
  rightWindow : Option Int := none

/-- Comparator dispatch shared by both branches of `_eval_condition`;
`crossAbove`/`crossBelow` reduce to the current-bar comparison, and an
unrecognized comparator falls through to `<`. -/
def applyComparator (comparator : String) (l r : QF) : Bool :=
  if comparator = "gt" then qfGtB l r
  else if comparator = "lt" then qfLtB l r
  else if comparator = "crossAbove" then qfGtB l r
  else if comparator = "crossBelow" then qfLtB l r
  else qfLtB l r

/-- `Backtester._eval_condition`: `none` models the Python `None` result
(missing data). -/
def evalCondition (db : Db) (idx : Nat) (cond : Cond) : Option Bool :=
  let metric := cond.metric.getD "Relative Strength Index"
  let ticker := pyTicker (cond.ticker.getD "SPY")
  let window := cond.window.getD 14
  let threshold := cond.threshold.getD 0
  let comparator := cond.comparator.getD "lt"
  match metricAt db idx ticker metric window with
  | none => none
  | some leftVal =>
    if cond.expanded then
      let rightTicker := pyTicker (cond.rightTicker.getD "SPY")
      let rightMetric := cond.rightMetric.getD metric
      let rightWindow := cond.rightWindow.getD window
      match metricAt db idx rightTicker rightMetric rightWindow with
      | none => none
      | some rightVal => some (applyComparator comparator leftVal rightVal)
    else
      some (applyComparator comparator leftVal (some threshold))

/-- `if current_and is not None: or_terms.append(current_and)` — the closing
of the loop's open AND-group. -/
def pushOpt : Option Bool → List Bool
  | some b => [b]
  | none => []

/-- The `and`-branch update of the loop's `current_and`. -/
def condAnd : Option Bool → Bool → Bool
  | none, r => r
  | some a, r => a && r

/-- The loop of `Backtester._eval_conditions`, with its running state: the
open AND-group value `curAnd` and the completed OR-terms `orTerms`. -/
def evalCondLoop (db : Db) (idx : Nat) :
    List Cond → Option Bool → List Bool → Bool
  | [], curAnd, orTerms => (orTerms ++ pushOpt curAnd).any id
  | c :: rest, curAnd, orTerms =>
    (evalCondition db idx c).elim false (fun r =>
      let t := c.ctype.getD "if"
      if t = "if" then
        evalCondLoop db idx rest (some r) (orTerms ++ pushOpt curAnd)
      else if t = "and" then
        evalCondLoop db idx rest (some (condAnd curAnd r)) orTerms
      else if t = "or" then
        evalCondLoop db idx rest (some r) (orTerms ++ pushOpt curAnd)
      else
        evalCondLoop db idx rest curAnd orTerms)

/-- `Backtester._eval_conditions`; the `logic` argument is accepted and,
as in the source, never used. -/
def evalConditions (db : Db) (idx : Nat) (conds : List Cond) (logic : String) : Bool :=
  if conds.isEmpty then false
  else
    let _ := logic
    evalCondLoop db idx conds none []

/-! Claim-side formalisation of C6's wording: the boolean result is the
disjunction of AND-groups built left-to-right (a new group starts at each
`if` and each `or`, `and` conjoins into the current group), and any null
condition result makes the whole list false. -/

/-- Closing the open AND-group into the group list. -/
def pushGroup : Option (List Bool) → List (List Bool)
  | some g => [g]
  | none => []

/-- AND-group construction from C6's words, carrying the open group. -/
def claimGroupsGo : List (String × Bool) → Option (List Bool) → List (List Bool)
  | [], cur => pushGroup cur
  | (t, r) :: rest, cur =>
    if t = "if" then pushGroup cur ++ claimGroupsGo rest (some [r])
    else if t = "and" then claimGroupsGo rest (some ((cur.getD []) ++ [r]))
    else if t = "or" then pushGroup cur ++ claimGroupsGo rest (some [r])
    else claimGroupsGo rest cur

/-- Claim C6's described semantics over the per-condition tagged results. -/
def claimCondEval (results : List (String × Option Bool)) : Bool :=
  if results.any (fun p => p.2.isNone) then false
  else ((claimGroupsGo (results.map (fun p => (p.1, p.2.getD false))) none).map
    (fun g => g.all id)).any id

/-! ### Strategy-tree nodes -/

/-- One item of a `numbered` node's `numbered.items` list. -/
structure NumItem where
  conditions : List Cond := []

/-- The `numbered` sub-dict of a quantifier node. -/
structure NumberedCfg where
  items : List NumItem := []
  quantifier : Option String := none
  n : Option Int := none

/-- The flat (non-recursive) fields a node dict can carry; optional fields
mirror `node.get(key, default)` with defaults applied at the use sites. -/
structure NodeData where
  kind : Option String := none
  nid : Option String := none
  weighting : Option String := none
  positions : List String := []
  conditions : List Cond := []
  conditionLogic : Option String := none
  metric : Option String := none
  window : Option Int := none
  bottom : Option Int := none
  rank : Option String := none
  scaleTicker : Option String := none
  scaleMetric : Option String := none
  scaleWindow : Option Int := none
  scaleFrom : Option ℚ := none
  scaleTo : Option ℚ := none
  entryConditions : List Cond := []
  exitConditions : List Cond := []
  entryConditionLogic : Option String := none
  exitConditionLogic : Option String := none
  numbered : Option NumberedCfg := none

/-- A strategy-tree node: flat fields plus the `children` dict mapping each
slot name to its (possibly null-containing) child list. -/
inductive Node : Type where
  | mk (data : NodeData) (children : List (String × List (Option Node)))

def Node.data : Node → NodeData
  | .mk d _ => d

def Node.children : Node → List (String × List (Option Node))
  | .mk _ c => c

/-- `node.get('children', {}).get(slot, [])`. -/
def childSlot (node : Node) (slot : String) : List (Option Node) :=
  (node.children.lookup slot).getD []

mutual

/-- `Backtester._collect_position_tickers`: this node's own position
tickers (if it is a `position` node) followed by a recursive walk over all
child slots. -/
def collectPositionTickers : Node → List String
  | .mk data children =>
    let own := if data.kind = some "position" then
        (data.positions.filter (fun p => p ≠ "" ∧ p ≠ "Empty")).map pyTicker
      else []
    own ++ collectFromSlots children

/-- Walk of the `children` dict for `_collect_position_tickers`. -/
def collectFromSlots : List (String × List (Option Node)) → List String
  | [] => []
  | slot :: rest => collectFromChildren slot.2 ++ collectFromSlots rest

/-- Walk of one slot's child list for `_collect_position_tickers`; null
children are skipped. -/
def collectFromChildren : List (Option Node) → List String
  | [] => []
  | none :: rest => collectFromChildren rest
  | some c :: rest => collectPositionTickers c ++ collectFromChildren rest

end

/-- The child evaluator threaded through the `_eval_*` helpers: it plays the
role of the recursive `self.evaluate_node(ctx, child)` call, transforming the
mutable `altExit` state. -/
abbrev EvalFn := AState → Node → Alloc × AState

/-- `Backtester._eval_position`. -/
def evalPosition (node : Node) : Alloc :=
  let positions := node.data.positions
  if positions.isEmpty then []
  else
    let valid := positions.filter (fun p => p ≠ "" ∧ p ≠ "Empty")
    if valid.isEmpty then []
    else
      let weight : ℚ := 1 / valid.length
      valid.foldl (fun alloc t => dictAdd alloc (pyTicker t) weight) []

/-- `Backtester._eval_children`: evaluate the non-null children left to
right (sequentially threading the node-state map, as the shared mutable
`ctx` does), drop empty allocations, then merge under the parent's
weighting — `equal` averages, any other weighting falls back to the first
non-empty child allocation. -/
def evalChildrenWith (evalFn : EvalFn) (parent : Node) (slot : String)
    (children : List (Option Node)) (st : AState) : Alloc × AState :=
  let _ := slot
  if children.isEmpty then ([], st)
  else
    let valid := children.filterMap id
    if valid.isEmpty then ([], st)
    else
      let weighting := parent.data.weighting.getD "equal"
      let evaluated := valid.foldl
        (fun (acc : List Alloc × AState) c =>
          let r := evalFn acc.2 c
          (acc.1 ++ [r.1], r.2)) ([], st)
      let childAllocs := evaluated.1.filter (fun a => ¬ a.isEmpty)
      if childAllocs.isEmpty then ([], evaluated.2)
      else if weighting = "equal" then
        let w : ℚ := 1 / childAllocs.length
        (childAllocs.foldl
          (fun result alloc =>
            alloc.foldl (fun r p => dictAdd r p.1 (p.2 * w)) result) [],
         evaluated.2)
      else (childAllocs.headD [], evaluated.2)

/-- `Backtester._eval_basic`. -/
def evalBasicWith (evalFn : EvalFn) (node : Node) (st : AState) : Alloc × AState :=
  evalChildrenWith evalFn node "next" (childSlot node "next") st

/-- `Backtester._eval_indicator`. -/
def evalIndicatorWith (evalFn : EvalFn) (db : Db) (idx : Nat) (node : Node)
    (st : AState) : Alloc × AState :=
  let conditions := node.data.conditions
  let logic := node.data.conditionLogic.getD "and"
  let result := evalConditions db idx conditions logic
  let branch := if result then "then" else "else"
  evalChildrenWith evalFn node branch (childSlot node branch) st

/-- Ascending insertion preserving the relative order of equal keys,
modelling Python's stable `list.sort`. -/
def insertLe {α : Type} (le : α → α → Bool) (x : α) : List α → List α
  | [] => [x]
  | y :: ys => if le y x then y :: insertLe le x ys else x :: y :: ys

/-- Stable sort by a boolean `le`. -/
def sortByLe {α : Type} (le : α → α → Bool) (l : List α) : List α :=
  l.foldr (insertLe le) []

/-- Sort key comparison for `_eval_function`'s `child_values.sort`; NaN
averages (possible when `_metric_at` returned a warm-up NaN) are ordered
arbitrarily, as Python's Timsort leaves their position unspecified. -/
def qfSortLe : QF → QF → Bool
  | some a, some b => decide (a ≤ b)
  | _, _ => true

/-- `Backtester._eval_function`: rank the `next` children by the average of
`metric` over their reachable position tickers, pick the first
`bottom`-many under the requested ordering, and combine those. -/
def evalFunctionWith (evalFn : EvalFn) (db : Db) (idx : Nat) (node : Node)
    (st : AState) : Alloc × AState :=
  let children := childSlot node "next"
  if children.isEmpty then ([], st)
  else
    let metric := node.data.metric.getD "Relative Strength Index"
    let window := node.data.window.getD 10
    let pickN := node.data.bottom.getD 1
    let rank := node.data.rank.getD "bottom"
    let childValues : List (Node × QF) := children.filterMap (fun oc =>
      oc.bind (fun child =>
        let tickers := collectPositionTickers child
        if tickers.isEmpty then none
        else
          let values := (tickers.filterMap
            (fun t => metricAt db idx t metric window))
          if values.isEmpty then none
          else some (child, qfDiv (values.foldl qfAdd (some 0)) (some (values.length : ℚ)))))
    let sorted :=
      if rank = "bottom" then sortByLe (fun a b => qfSortLe a.2 b.2) childValues
      else sortByLe (fun a b => qfSortLe b.2 a.2) childValues
    let picked := (sorted.take pickN.toNat).map (fun p => some p.1)
    evalChildrenWith evalFn node "next" picked st

/-- Python `min(1.0, x)` where `x` may be NaN: the comparison `x < 1.0` is
false for NaN, so NaN yields `1.0`. -/
def pyMin1 : QF → ℚ
  | some q => if q < 1 then q else 1
  | none => 1

/-- Python `max(0.0, y)` on a real argument. -/
def pyMax0 (y : ℚ) : ℚ := if y > 0 then y else 0

/-- The blend-factor computation of `_eval_scaling` (source lines 588-595):
`blend` starts at 0.0 and is overwritten only when the gauge value is not
`None` and the bounds differ; a NaN gauge flows through Python's
`max(0.0, min(1.0, nan)) = 1.0`. -/
def scalingBlend (val : Option QF) (scaleFrom scaleTo : ℚ) : ℚ :=
  match val with
  | none => 0
  | some v =>
    if scaleFrom ≠ scaleTo then
      if scaleFrom < scaleTo then
        pyMax0 (pyMin1 (qfDiv (qfSub v (some scaleFrom)) (some (scaleTo - scaleFrom))))
      else
        pyMax0 (pyMin1 (qfDiv (qfSub (some scaleFrom) v) (some (scaleFrom - scaleTo))))
    else 0

/-- `Backtester._eval_scaling`: blend the `then` and `else` slot allocations
by the clamped, normalized gauge value. -/
def evalScalingWith (evalFn : EvalFn) (db : Db) (idx : Nat) (node : Node)
    (st : AState) : Alloc × AState :=
  let scaleTicker := pyTicker (node.data.scaleTicker.getD "SPY")
  let scaleMetric := node.data.scaleMetric.getD "Relative Strength Index"
  let scaleWindow := node.data.scaleWindow.getD 14
  let scaleFrom := node.data.scaleFrom.getD 0
  let scaleTo := node.data.scaleTo.getD 100
  let val := metricAt db idx scaleTicker scaleMetric scaleWindow
  let blend := scalingBlend val scaleFrom scaleTo
  let thenRes := evalChildrenWith evalFn node "then" (childSlot node "then") st
  let elseRes := evalChildrenWith evalFn node "else" (childSlot node "else") thenRes.2
  let alloc := thenRes.1.foldl (fun a p => dictAdd a p.1 (p.2 * (1 - blend))) []
  let alloc := elseRes.1.foldl (fun a p => dictAdd a p.1 (p.2 * blend)) alloc
  (alloc, elseRes.2)

/-- `Backtester._eval_altExit`: read the gate's state from the node-state
map (default false), run the entry/exit state machine, write the new state
back, then forward to `then` (entered) or `else` (not entered). -/
def evalAltExitWith (evalFn : EvalFn) (db : Db) (idx : Nat) (node : Node)
    (st : AState) : Alloc × AState :=
  let nodeId := node.data.nid.getD "unknown"
  let isEntered := (st.lookup nodeId).getD false
  let entryConditions := node.data.entryConditions
  let exitConditions := node.data.exitConditions
  let entryLogic := node.data.entryConditionLogic.getD "and"
  let exitLogic := node.data.exitConditionLogic.getD "and"
  let entryMet := if entryConditions.isEmpty then false
    else evalConditions db idx entryConditions entryLogic
  let exitMet := if exitConditions.isEmpty then false
    else evalConditions db idx exitConditions exitLogic
  let newState :=
    if ¬ isEntered ∧ entryMet then true
    else if isEntered ∧ exitMet then false
    else isEntered
  let st' := stateSet st nodeId newState
  let branch := if newState then "then" else "else"
  evalChildrenWith evalFn node branch (childSlot node branch) st'

/-- `Backtester._eval_numbered`: count the items whose condition lists hold,
then dispatch on the quantifier (`ladder` forwards to the `ladder-<n_true>`
slot). -/
def evalNumberedWith (evalFn : EvalFn) (db : Db) (idx : Nat) (node : Node)
    (st : AState) : Alloc × AState :=
  let cfg := node.data.numbered.getD {}
  let items := cfg.items
  let quantifier := cfg.quantifier.getD "all"
  let n := cfg.n.getD 0
  let nTrue := (items.filter (fun it =>
    ¬ it.conditions.isEmpty ∧ evalConditions db idx it.conditions "and")).length
  if quantifier = "ladder" then
    let slotKey := "ladder-" ++ toString nTrue
    evalChildrenWith evalFn node slotKey (childSlot node slotKey) st
  else
    let ok :=
      if quantifier = "any" then 1 ≤ nTrue
      else if quantifier = "all" then nTrue = items.length
      else if quantifier = "none" then nTrue = 0
      else if quantifier = "exactly" then (nTrue : Int) = n
      else if quantifier = "atLeast" then n ≤ (nTrue : Int)
      else if quantifier = "atMost" then (nTrue : Int) ≤ n
      else False
    let branch := if ok then "then" else "else"
    evalChildrenWith evalFn node branch (childSlot node branch) st

/-- `Backtester.evaluate_node`. The source recurses on the finite tree; the
embedding bounds that recursion by a fuel parameter consumed once per tree
level, so any `fuel` at least the tree depth computes the source's value.
An unrecognized kind falls through every dispatch branch to `return {}`. -/
def evalNode (db : Db) (idx : Nat) : Nat → AState → Node → Alloc × AState
  | 0, st, _ => ([], st)
  | fuel + 1, st, node =>
    let kind := node.data.kind.getD ""
    if kind = "position" then (evalPosition node, st)
    else if kind = "indicator" then evalIndicatorWith (evalNode db idx fuel) db idx node st
    else if kind = "function" then evalFunctionWith (evalNode db idx fuel) db idx node st
    else if kind = "basic" then evalBasicWith (evalNode db idx fuel) node st
    else if kind = "scaling" then evalScalingWith (evalNode db idx fuel) db idx node st
    else if kind = "altExit" then evalAltExitWith (evalNode db idx fuel) db idx node st
    else if kind = "numbered" then evalNumberedWith (evalNode db idx fuel) db idx node st
    else ([], st)

/-- `Backtester.evaluate_tree`: builds a fresh evaluation context for the
bar — in particular `'altExit_state': {}` starts empty on every call — and
returns only the allocation (the context dict is discarded by the caller). -/
def evaluateTree (db : Db) (fuel : Nat) (tree : Node) (idx : Nat) : Alloc :=
  (evalNode db idx fuel [] tree).1

/-! ### Simulator (`Backtester.simulate`, lines 388-455) -/

/-- Mark-to-market loop over the holdings dict: tickers without price data
or out-of-range bars are skipped, exactly as the guarded Python loop does. -/
def mtm (close : List (Ticker × List ℚ)) (holdings : List (Ticker × ℚ)) (i : Nat) : ℚ :=
  holdings.foldl (fun acc p =>
    match close.lookup p.1 with
    | some prices => if i < prices.length then acc + p.2 * prices.getD i 0 else acc
    | none => acc) 0

/-- The simulator's per-bar mutable state plus its accumulated outputs. -/
structure SimState where
  equity : ℚ
  holdings : List (Ticker × ℚ)
  prevAllocation : Alloc
  equityCurve : List (Int × ℚ)
  allocations : List Alloc

/-- One iteration of the `for i in range(len(dates))` loop in `simulate`. -/
def simStep (db : Db) (fuel : Nat) (tree : Node) (costMultiplier : ℚ)
    (s : SimState) (i : Nat) : SimState :=
  let allocation := evaluateTree db fuel tree i
  let portfolioValue := mtm db.close s.holdings i
  let currentEquity :=
    if ¬ s.holdings.isEmpty ∧ portfolioValue > 0 then portfolioValue else s.equity
  let rebalanced :=
    if ¬ dictBeq allocation s.prevAllocation then
      let newHoldings := allocation.foldl (fun nh p =>
        match db.close.lookup p.1 with
        | some prices =>
          if i < prices.length then
            let currentPrice := prices.getD i 0
            if currentPrice > 0 then
              dictSet nh p.1 (currentEquity * p.2 * costMultiplier / currentPrice)
            else nh
          else nh
        | none => nh) []
      (newHoldings, allocation)
    else (s.holdings, s.prevAllocation)
  let finalEquity := mtm db.close rebalanced.1 i
  let equityValue := if ¬ rebalanced.1.isEmpty then finalEquity else currentEquity
  { equity := equityValue
    holdings := rebalanced.1
    prevAllocation := rebalanced.2
    equityCurve := s.equityCurve ++ [(db.dates.getD i 0, equityValue)]
    allocations := s.allocations ++ [allocation] }

/-- Initial simulator state: equity 10000, no holdings, empty previous
allocation. -/
def simInit : SimState :=
  { equity := 10000, holdings := [], prevAllocation := [], equityCurve := [], allocations := [] }

/-- The simulator state after the first `n` bars. -/
def simUpTo (db : Db) (fuel : Nat) (tree : Node) (costBps : ℚ) (n : Nat) : SimState :=
  (List.range n).foldl (simStep db fuel tree (1 - costBps / 10000)) simInit

/-- `Backtester.simulate`: returns the equity curve and per-bar allocations.
The `mode` argument is accepted and, as in the source, never used. -/
def simulate (db : Db) (fuel : Nat) (tree : Node) (mode : String) (costBps : ℚ) :
    List (Int × ℚ) × List Alloc :=
  let _ := mode
  let s := simUpTo db fuel tree costBps db.dates.length
  (s.equityCurve, s.allocations)

/-! ### Metrics engine
(`optimized_metrics.py` and `Backtester.calculate_metrics`).

The transcendental operations are explicit parameters: `powFn b e` stands
for the float power `b ** e` (used only in CAGR, with `e = 1 / n_years`)
and `sqrtFn x` for `np.sqrt(x)`. Every theorem below holds for every choice
of these parameters. -/

/-- `np.mean` on a plain (non-NaN) list; the sources only take means of
nonempty lists on the modelled paths (`ℚ` division by zero yields 0). -/
def npMean (xs : List ℚ) : ℚ := xs.sum / xs.length

/-- `np.var` (population variance, ddof 0). -/
def npVar (xs : List ℚ) : ℚ :=
  ((xs.map (fun x => (x - npMean xs) ^ 2)).sum) / xs.length

/-- `np.std` = square root of the population variance. -/
def npStd (sqrtFn : ℚ → ℚ) (xs : List ℚ) : ℚ := sqrtFn (npVar xs)

/-- `np.cov(xs, ys)[0, 1]` (sample covariance, ddof 1). For fewer than two
samples NumPy yields NaN; that value is only consumed behind the
`spy_variance > 0` guard, which is then false, so it is modelled as 0. -/
def npCovSample (xs ys : List ℚ) : ℚ :=
  if xs.length < 2 then 0
  else ((xs.zip ys).map (fun p => (p.1 - npMean xs) * (p.2 - npMean ys))).sum
    / ((xs.length : ℚ) - 1)

/-- `returns[i] = values[i+1] / values[i] - 1`, i.e.
`np.diff(values) / values[:-1]`. -/
def npDiffRatio (values : List ℚ) : List ℚ :=
  List.zipWith (fun a b => (b - a) / a) values values.tail

/-- `calculate_max_drawdown` of `optimized_metrics.py` (the identical loop
is inlined in `calculate_all_metrics_fast`): running peak, largest
`(peak - value) / peak`. -/
def maxDrawdownOf (values : List ℚ) : ℚ :=
  match values with
  | [] => 0
  | v0 :: _ =>
    (values.foldl (fun (st : ℚ × ℚ) v =>
      let peak := if v > st.1 then v else st.1
      let dd := if peak > 0 then (peak - v) / peak else 0
      (peak, if dd > st.2 then dd else st.2)) (v0, 0)).2

/-- `calculate_cagr` of `optimized_metrics.py`. -/
def calcCagr (powFn : ℚ → ℚ → ℚ) (values : List ℚ) (nYears : ℚ) : ℚ :=
  if values.length < 2 ∨ nYears ≤ 0 then 0
  else
    let startValue := values.headD 0
    let endValue := values.getLastD 0
    if startValue ≤ 0 then 0
    else powFn (endValue / startValue) (1 / nYears) - 1

/-- `calculate_calmar_ratio` of `optimized_metrics.py`: note the sentinel
`100.0` returned for a positive CAGR with zero drawdown. -/
def calcCalmarRatio (powFn : ℚ → ℚ → ℚ) (values : List ℚ) (nYears : ℚ) : ℚ :=
  if values.length < 2 ∨ nYears ≤ 0 then 0
  else
    let cagr := calcCagr powFn values nYears
    let maxDd := maxDrawdownOf values
    if maxDd = 0 then (if cagr ≤ 0 then 0 else 100)
    else cagr / maxDd

/-- The tuple produced by `calculate_all_metrics_fast`. -/
structure FastMetrics where
  cagr : ℚ
  sharpe : ℚ
  calmar : ℚ
  maxDrawdown : ℚ
  sortino : ℚ
  tim : ℚ
  timar : ℚ
  winRate : ℚ
deriving DecidableEq

/-- `calculate_all_metrics_fast` of `optimized_metrics.py`. -/
def calcAllMetricsFast (powFn : ℚ → ℚ → ℚ) (sqrtFn : ℚ → ℚ)
    (equityCurve returns : List ℚ) (nYears periodsPerYear : ℚ) : FastMetrics :=
  if equityCurve.length < 2 ∨ returns.length < 2 ∨ nYears ≤ 0 then
    ⟨0, 0, 0, 0, 0, 0, 0, 0⟩
  else
    let startValue := equityCurve.headD 0
    let endValue := equityCurve.getLastD 0
    let cagr := if startValue ≤ 0 then 0 else powFn (endValue / startValue) (1 / nYears) - 1
    let maxDd := maxDrawdownOf equityCurve
    let meanReturn := npMean returns
    let stdReturn := npStd sqrtFn returns
    let sharpe := if stdReturn = 0 then 0 else meanReturn / stdReturn * sqrtFn periodsPerYear
    let downside := returns.filter (fun r => r < 0)
    let sortino :=
      if downside.isEmpty then (if meanReturn ≤ 0 then 0 else 100)
      else
        let downsideStd := npStd sqrtFn downside
        if downsideStd = 0 then 0 else meanReturn / downsideStd * sqrtFn periodsPerYear
    let calmar := if maxDd = 0 then (if cagr ≤ 0 then 0 else 100) else cagr / maxDd
    let nPeriods := equityCurve.length - 1
    let inMarket := ((List.zipWith (fun a b => decide (a < b))
      equityCurve equityCurve.tail).count true : ℚ)
    let timeInMarket := if (nPeriods : ℚ) > 0 then inMarket / nPeriods else 0
    let tim := if timeInMarket = 0 then 0 else cagr / timeInMarket
    let timar := if maxDd = 0 then (if tim ≤ 0 then 0 else 100) else tim / maxDd
    let winRate :=
      if returns.length > 0 then
        ((returns.filter (fun r => r > 0)).length : ℚ) / returns.length
      else 0
    ⟨cagr, sharpe, calmar, maxDd, sortino, tim, timar, winRate⟩

/-- `calculate_metrics_fast`, the wrapper invoked by the backtester. -/
def calculateMetricsFast (powFn : ℚ → ℚ → ℚ) (sqrtFn : ℚ → ℚ)
    (equityCurve : List ℚ) (nYears : ℚ) : FastMetrics :=
  if equityCurve.length < 2 then ⟨0, 0, 0, 0, 0, 0, 0, 0⟩
  else calcAllMetricsFast powFn sqrtFn equityCurve (npDiffRatio equityCurve) nYears 252

/-- The metric record assembled by `Backtester.calculate_metrics`.
`startDate` is the Unix timestamp whose `strftime` rendering the source
stores. -/
structure MetricsRec where
  startDate : Option Int
  years : ℚ
  cagr : ℚ
  sharpe : ℚ
  calmar : ℚ
  maxDrawdown : ℚ
  sortino : ℚ
  treynor : ℚ
  beta : ℚ
  vol : ℚ
  winRate : ℚ
  avgTurnover : ℚ
  avgHoldings : ℚ
  tim : ℚ
  timar : ℚ
deriving DecidableEq

/-- `Backtester.empty_metrics`. -/
def emptyMetrics : MetricsRec :=
  ⟨none, 0, 0, 0, 0, 0, 0, 0, 0, 0, 0, 0, 0, 0, 0⟩

/-- The benchmark subset taken inside the beta computation: with an index
restriction, `[spy_prices[i] for i in indices if i < len(spy_prices)]`;
without one, `spy_prices[:len(values)]`. -/
def spySubsetOf (spyPrices : List ℚ) (nValues : Nat) (indices : Option (List Nat)) : List ℚ :=
  match indices with
  | some is => is.filterMap (fun i => spyPrices.get? i)
  | none => spyPrices.take nValues

/-- `Backtester.calculate_metrics`, in the Numba-available configuration
(the primary path, lines 916-973 of `backtester.py`). -/
def calculateMetrics (powFn : ℚ → ℚ → ℚ) (sqrtFn : ℚ → ℚ)
    (equityCurve : List (Int × ℚ)) (db : Db) (mode : String)
    (indices : Option (List Nat)) (allocations : Option (List Alloc)) : MetricsRec :=
  let _ := mode
  if equityCurve.isEmpty then emptyMetrics
  else
    let timestamps := equityCurve.map Prod.fst
    let values := equityCurve.map Prod.snd
    let startDate := timestamps.head?
    let nYears : ℚ := if values.length > 0 then (values.length : ℚ) / 252 else 1
    let returns := if values.length > 1 then npDiffRatio values else []
    let beta : ℚ :=
      match db.close.lookup "SPY" with
      | none => 0
      | some spyPrices =>
        if returns.length > 0 then
          let spySubset := spySubsetOf spyPrices values.length indices
          if spySubset.length > 1 then
            let spyReturns := npDiffRatio spySubset
            let minLen := min returns.length spyReturns.length
            if minLen > 0 then
              let covariance := npCovSample (returns.take minLen) (spyReturns.take minLen)
              let spyVariance := npVar (spyReturns.take minLen)
              if spyVariance > 0 then covariance / spyVariance else 0
            else 0
          else 0
        else 0
    let m := calculateMetricsFast powFn sqrtFn values nYears
    let vol := if returns.length > 0 then npStd sqrtFn returns * sqrtFn 252 else 0
    let riskFreeRate : ℚ := 3 / 100
    let treynor := if beta ≠ 0 then (m.cagr - riskFreeRate) / beta else 0
    -- `if allocations is not None and len(allocations) > 0:` — the else
    -- branch (allocations absent OR empty) leaves tim = timar = 0 and takes
    -- `win_rate = metrics['winRate']`.
    let timTimarWin : ℚ × ℚ × ℚ :=
      match allocations with
      | some allocs =>
        if allocs.length > 0 then
          let investedIndices := (List.range allocs.length).filter
            (fun i => ¬ (allocs.getD i []).isEmpty)
          let tim := (investedIndices.length : ℚ) / allocs.length
          let timar := if tim > 0 then m.cagr / tim else 0
          let investedReturns := investedIndices.filterMap (fun idx =>
            if idx < values.length - 1 then
              some ((values.getD (idx + 1) 0 - values.getD idx 0) / values.getD idx 0)
            else none)
          let winRate :=
            if investedReturns.length > 0 then
              ((investedReturns.filter (fun r => r > 0)).length : ℚ) / investedReturns.length
            else 0
          (tim, timar, winRate)
        else (0, 0, m.winRate)
      | none => (0, 0, m.winRate)
    { startDate := startDate
      years := nYears
      cagr := m.cagr
      sharpe := m.sharpe
      calmar := m.calmar
      maxDrawdown := m.maxDrawdown
      sortino := m.sortino
      treynor := treynor
      beta := beta
      vol := vol
      winRate := timTimarWin.2.2
      avgTurnover := 0
      avgHoldings := 0
      tim := timTimarWin.1
      timar := timTimarWin.2.1 }

/-- The slice `[xs[i] for i in indices]` used by `run_backtest` to build
`is_equity` / `is_allocations` (its indices come from `enumerate`, hence
are in range; out-of-range indices are dropped). -/
def sliceList {α : Type} (xs : List α) (indices : List Nat) : List α :=
  indices.filterMap (fun i => xs.get? i)

/-! ### Indicator cache (`indicator_cache.py`), with the Numba-compiled
indicator kernels of `optimized_indicators.py` (`USE_NUMBA = True`). -/

/-- `calculate_rsi_fast`: RSI filled with the neutral 50 during warm-up. -/
def calcRsiFast (prices : List ℚ) (period : Int) : List ℚ :=
  let n := prices.length
  let p := period.toNat
  let pQ : ℚ := p
  if n < p + 1 then List.replicate n 50
  else
    let deltas := List.zipWith (fun a b => b - a) prices prices.tail
    let gains := deltas.map (fun d => if d > 0 then d else 0)
    let losses := deltas.map (fun d => if d < 0 then -d else 0)
    let base := List.replicate n (50 : ℚ)
    if p ≤ gains.length then
      let avgGain0 := (gains.take p).sum / pQ
      let avgLoss0 := (losses.take p).sum / pQ
      let rsi0 := if avgLoss0 ≠ 0 then 100 - 100 / (1 + avgGain0 / avgLoss0) else (50 : ℚ)
      let base := listSet base p rsi0
      let alpha : ℚ := 1 / pQ
      let final := (List.range' p (n - 1 - p)).foldl
        (fun (st : List ℚ × ℚ × ℚ) i =>
          let ag := gains.getD i 0 * alpha + st.2.1 * (1 - alpha)
          let al := losses.getD i 0 * alpha + st.2.2 * (1 - alpha)
          let v := if al ≠ 0 then 100 - 100 / (1 + ag / al) else 100
          (listSet st.1 (i + 1) v, ag, al))
        (base, avgGain0, avgLoss0)
      final.1
    else base

/-- `calculate_sma_fast`: price-filled before the window completes. -/
def calcSmaFast (prices : List ℚ) (period : Int) : List ℚ :=
  let n := prices.length
  let p := period.toNat
  if n < p ∨ p = 0 then prices
  else
    let pQ : ℚ := p
    (List.range n).map fun i =>
      if i < p - 1 then prices.getD i 0
      else (((prices.drop (i + 1 - p)).take p).sum) / pQ

/-- `calculate_ema_fast`: seeded with the first price. -/
def calcEmaFast (prices : List ℚ) (period : Int) : List ℚ :=
  let n := prices.length
  if n < 1 then prices
  else
    let alpha : ℚ := 2 / ((period : ℚ) + 1)
    let seed := prices.headD 0
    let final := (List.range' 1 (n - 1)).foldl
      (fun (st : List ℚ × ℚ) i =>
        let v := prices.getD i 0 * alpha + st.2 * (1 - alpha)
        (listSet st.1 i v, v))
      (listSet (List.replicate n (0 : ℚ)) 0 seed, seed)
    final.1

/-- `calculate_stddev_fast`: rolling population standard deviation, zero
during warm-up; the inner `np.sqrt` is the explicit `sqrtFn` parameter. -/
def calcStddevFast (sqrtFn : ℚ → ℚ) (prices : List ℚ) (period : Int) : List ℚ :=
  let n := prices.length
  let p := period.toNat
  if n < p ∨ p = 0 then List.replicate n 0
  else
    let pQ : ℚ := p
    (List.range n).map fun i =>
      if i < p - 1 then 0
      else
        let window := (prices.drop (i + 1 - p)).take p
        let mean := window.sum / pQ
        sqrtFn ((window.map (fun x => (x - mean) * (x - mean))).sum / pQ)

/-- `calculate_roc_fast`: percentage rate of change, zero during warm-up. -/
def calcRocFast (prices : List ℚ) (period : Int) : List ℚ :=
  let n := prices.length
  let p := period.toNat
  if n < p + 1 then List.replicate n 0
  else
    (List.range n).map fun i =>
      if i < p then 0
      else if prices.getD (i - p) 0 ≠ 0 then
        (prices.getD i 0 - prices.getD (i - p) 0) / prices.getD (i - p) 0 * 100
      else 0

/-- The indicator dispatch of `IndicatorCache.get_indicator` (lines 67-83):
every branch produces an array (unknown names fall back to the price
series), so the Python `values` is never `None`. -/
def calcDispatch (sqrtFn : ℚ → ℚ) (indicator : String) (period : Int)
    (prices : List ℚ) : List ℚ :=
  if indicator = "RSI" ∨ indicator = "Relative Strength Index" then calcRsiFast prices period
  else if indicator = "SMA" ∨ indicator = "Simple Moving Average" then calcSmaFast prices period
  else if indicator = "EMA" ∨ indicator = "Exponential Moving Average" then calcEmaFast prices period
  else if indicator = "StdDev" ∨ indicator = "Standard Deviation" then
    calcStddevFast sqrtFn prices period
  else if indicator = "ROC" ∨ indicator = "Rate of Change" then calcRocFast prices period
  else if indicator = "ATR" ∨ indicator = "Average True Range" then calcSmaFast prices period
  else prices

/-- The `IndicatorCache` object state. -/
structure ICache where
  cache : List (String × List ℚ)
  maxCacheSize : Nat
  hitCount : Nat
  missCount : Nat
deriving DecidableEq

/-- `IndicatorCache.__init__`. -/
def ICache.init (maxSize : Nat) : ICache := ⟨[], maxSize, 0, 0⟩

/-- `IndicatorCache.clear`. -/
def ICache.clear (c : ICache) : ICache := ⟨[], c.maxCacheSize, 0, 0⟩

/-- The `f"{ticker}:{indicator}:{period}"` cache key. -/
def cacheKey (ticker indicator : String) (period : Int) : String :=
  ticker ++ ":" ++ indicator ++ ":" ++ toString period

/-- `IndicatorCache.get_indicator`: return the cached series on a hit;
otherwise compute, store only while `len(cache) < max_cache_size`, and
return the computed series either way. -/
def getIndicator (sqrtFn : ℚ → ℚ) (c : ICache) (ticker indicator : String)
    (period : Int) (prices : List ℚ) : List ℚ × ICache :=
  let key := cacheKey ticker indicator period
  match c.cache.lookup key with
  | some v => (v, { c with hitCount := c.hitCount + 1 })
  | none =>
    let values := calcDispatch sqrtFn indicator period prices
    let c := { c with missCount := c.missCount + 1 }
    if c.cache.length < c.maxCacheSize then
      (values, { c with cache := dictSet c.cache key values })
    else (values, c)

/-- One `get_indicator` call's arguments. -/
structure ICall where
  ticker : String
  indicator : String
  period : Int
  prices : List ℚ

/-- Run a sequence of `get_indicator` calls, keeping only the cache state. -/
def runCalls (sqrtFn : ℚ → ℚ) (c : ICache) : List ICall → ICache
  | [] => c
  | call :: rest =>
    runCalls sqrtFn (getIndicator sqrtFn c call.ticker call.indicator call.period call.prices).2 rest

/-! ### Parameter sweep enumeration (`flowchart_branch_generator.py`) -/

/-- One `ParameterRange` record. -/
structure ParameterRange where
  enabled : Bool := false
  pid : String := ""
  ptype : String := ""
  nodeId : String := ""
  conditionId : Option String := none
  minVal : ℚ := 0
  maxVal : ℚ := 0
  step : ℚ := 0

/-- The `while current <= max_val` enumeration loop (lines 33-37 of
`generate_parameter_combinations`), for a positive step. -/
def enumFrom (maxVal step : ℚ) (hstep : 0 < step) (current : ℚ) : List ℚ :=
  if h : current ≤ maxVal then current :: enumFrom maxVal step hstep (current + step)
  else []
termination_by (⌈(maxVal - current) / step⌉ + 1).toNat
decreasing_by
  have hnn : (0 : ℚ) ≤ (maxVal - current) / step := div_nonneg (by linarith) hstep.le
  have h0 : (0 : ℤ) ≤ ⌈(maxVal - current) / step⌉ := Int.ceil_nonneg hnn
  have heq : (maxVal - (current + step)) / step = (maxVal - current) / step - 1 := by
    field_simp
    ring
  rw [heq]
  have hc1 : ⌈(maxVal - current) / step - (1 : ℚ)⌉ = ⌈(maxVal - current) / step⌉ - 1 :=
    Int.ceil_sub_one ((maxVal - current) / step)
  rw [hc1]
  omega

/-- The value enumeration for one parameter range. The source's loop runs
forever on a non-positive step; that unreachable configuration (the claims
assume a positive step) is modelled as the empty enumeration. -/
def enumValues (minVal maxVal step : ℚ) : List ℚ :=
  if hstep : 0 < step then enumFrom maxVal step hstep minVal
  else []

/-- One entry of `param_value_lists` inside
`generate_parameter_combinations`. -/
structure ParamValueList where
  pid : String
  ptype : String
  nodeId : String
  conditionId : Option String
  values : List ℚ

/-- Lines 19-45 of `generate_parameter_combinations`: filter the enabled
ranges and enumerate each one's discrete values. -/
def paramValueLists (ranges : List ParameterRange) : List ParamValueList :=
  (ranges.filter (fun p => p.enabled)).map (fun p =>
    ⟨p.pid, p.ptype, p.nodeId, p.conditionId, enumValues p.minVal p.maxVal p.step⟩)

/-! ### Concrete stand-ins for the transcendental parameters, used only to
instantiate counterexamples and witnesses. -/

/-- A computable stand-in for the float power `b ** e`: it returns the base,
so it agrees with the real power in every comparison against 1 when the
exponent is positive — the only way the concrete statements below consume
it.  The general theorems are quantified over every power function. -/
def powBase (b e : ℚ) : ℚ :=
  let _ := e
  b

/-- A computable stand-in for `np.sqrt`; the concrete statements
instantiated with it do not depend on the choice. -/
def sqrtId (x : ℚ) : ℚ := x

/-! ### General helper lemmas about the dictionary model -/

theorem lookup_cons_pair {β : Type} (p : Ticker × β) (l : List (Ticker × β))
    (t : Ticker) :
    List.lookup t (p :: l) = if t = p.1 then some p.2 else List.lookup t l := by
  obtain ⟨a, b⟩ := p
  by_cases h : t = a
  · simp [List.lookup, h]
  · have hb : (t == a) = false := beq_eq_false_iff_ne.mpr h
    simp [List.lookup, hb, h]

theorem lookup_dictSet {β : Type} (m : List (Ticker × β)) (k : Ticker) (v : β)
    (t : Ticker) :
    (dictSet m k v).lookup t = if t = k then some v else m.lookup t := by
  induction m with
  | nil =>
    rw [dictSet, lookup_cons_pair]
  | cons p rest ih =>
    rw [dictSet]
    by_cases hp : p.1 = k
    · rw [if_pos hp, lookup_cons_pair, lookup_cons_pair, hp]
      by_cases ht : t = k <;> simp [ht]
    · rw [if_neg hp, lookup_cons_pair, lookup_cons_pair, ih]
      by_cases ht : t = p.1
      · have htk : ¬ t = k := fun hh => hp (ht ▸ hh)
        simp [ht, htk, hp]
      · simp [ht]

theorem dictGet_cons (p : Ticker × ℚ) (rest : Alloc) (t : Ticker) :
    dictGet (p :: rest) t = if t = p.1 then p.2 else dictGet rest t := by
  rw [dictGet, lookup_cons_pair]
  by_cases h : t = p.1 <;> simp [h, dictGet]

theorem dictGet_dictAdd (m : Alloc) (k : Ticker) (w : ℚ) (t : Ticker) :
    dictGet (dictAdd m k w) t = dictGet m t + if t = k then w else 0 := by
  unfold dictAdd
  by_cases h : t = k
  · simp [dictGet, lookup_dictSet, h]
  · simp [dictGet, lookup_dictSet, h]

theorem lookup_eq_none_of_not_mem_keys {β : Type} (m : List (Ticker × β))
    (k : Ticker) (h : k ∉ m.map Prod.fst) : m.lookup k = none := by
  induction m with
  | nil => rfl
  | cons p rest ih =>
    simp only [List.map_cons, List.mem_cons, not_or] at h
    have h1 : ¬ k = p.1 := fun hh => h.1 hh
    rw [lookup_cons_pair, if_neg h1]
    exact ih h.2

theorem lookup_some_mem {β : Type} (m : List (Ticker × β)) (k : Ticker) (v : β)
    (h : m.lookup k = some v) : (k, v) ∈ m := by
  induction m with
  | nil => simp [List.lookup] at h
  | cons p rest ih =>
    rw [lookup_cons_pair] at h
    by_cases hk : k = p.1
    · rw [if_pos hk] at h
      have hv : v = p.2 := by injection h with h'; exact h'.symm
      rw [hk, hv]
      exact List.mem_cons_self _ _
    · rw [if_neg hk] at h
      exact List.mem_cons_of_mem _ (ih h)

/-- Folding `dictAdd` of a coefficient-scaled duplicate-free allocation into
an accumulator adds the scaled looked-up weight, pointwise. -/
theorem dictGet_scale_fold (l : Alloc) (init : Alloc) (c : ℚ) (t : Ticker)
    (hnodup : (l.map Prod.fst).Nodup) :
    dictGet (l.foldl (fun a p => dictAdd a p.1 (p.2 * c)) init) t
      = dictGet init t + c * dictGet l t := by
  induction l generalizing init with
  | nil => simp [dictGet]
  | cons p rest ih =>
    simp only [List.map_cons, List.nodup_cons] at hnodup
    simp only [List.foldl_cons]
    rw [ih (dictAdd init p.1 (p.2 * c)) hnodup.2, dictGet_dictAdd, dictGet_cons]
    by_cases ht : t = p.1
    · subst ht
      have hrest : rest.lookup p.1 = none :=
        lookup_eq_none_of_not_mem_keys rest p.1 hnodup.1
      simp [dictGet, hrest]
      ring
    · simp only [if_neg ht]
      ring

/-! ### Claim C8: unknown node kinds -/

/-- Counterexample to claim C8: evaluating a node whose `kind` is the
unrecognized string `"bogus"` is not a fatal error — `evaluate_node` falls
through its dispatch chain and returns the ordinary empty allocation with
the node-state map untouched.  No `MalformedTreeError` exists anywhere in
the sources. -/
theorem unknown_kind_counterexample :
    evalNode { dates := [], close := [] } 0 3 []
      (Node.mk { kind := some "bogus", positions := ["SPY"] } []) = ([], []) := by
  decide

/-- Claim C8 (amended): for every strategy-tree node whose `kind` tag is not
one of the seven recognized kinds, `evaluate_node` returns the empty
allocation (out of market) without raising any error and without touching
the node-state map. -/
theorem unknown_kind_empty_alloc (db : Db) (idx fuel : Nat) (st : AState) (node : Node)
    (h : node.data.kind.getD "" ∉
      (["position", "indicator", "function", "basic", "scaling", "altExit",
        "numbered"] : List String)) :
    evalNode db idx fuel st node = ([], st) := by
  cases fuel with
  | zero => rfl
  | succ fuel =>
    simp only [List.mem_cons, List.not_mem_nil, or_false, not_or] at h
    obtain ⟨h1, h2, h3, h4, h5, h6, h7⟩ := h
    simp [evalNode, h1, h2, h3, h4, h5, h6, h7]

/-- Witness for C8's amended theorem at a concrete unrecognized node. -/
theorem unknown_kind_empty_alloc_witness :
    ((Node.mk { kind := some "mystery" } []).data.kind.getD "" ∉
      (["position", "indicator", "function", "basic", "scaling", "altExit",
        "numbered"] : List String))
    ∧ evalNode { dates := [], close := [] } 2 4 [("gate", true)]
        (Node.mk { kind := some "mystery" } []) = ([], [("gate", true)]) :=
  ⟨by decide,
   unknown_kind_empty_alloc { dates := [], close := [] } 2 4 [("gate", true)]
     (Node.mk { kind := some "mystery" } []) (by decide)⟩

/-! ### Claim C4: sweep value enumeration -/

/-- Counterexample to claim C4: with min 0, max 10 and step 3 the
enumeration loop produces `[0, 3, 6, 9]` — the bound `max = 10` is not
among the values, because the `while current <= max` loop only ever emits
`min + k * step`. -/
theorem sweep_max_value_counterexample :
    enumValues 0 10 3 = [0, 3, 6, 9] ∧ (10 : ℚ) ∉ enumValues 0 10 3 := by
  have h : enumValues 0 10 3 = [0, 3, 6, 9] := by
    rw [enumValues, dif_pos (by norm_num)]
    rw [enumFrom, enumFrom, enumFrom, enumFrom, enumFrom]
    norm_num
  refine ⟨h, ?_⟩
  rw [h]
  norm_num

/-- Claim C4 (amended): for a positive step, the enumerated value sequence
consists exactly of the values `min + k * step` (k ∈ ℕ) that do not exceed
`max`; in particular `max` itself appears only when `max - min` is a
natural multiple of `step`, and is skipped otherwise. -/
theorem sweep_values_characterization (minVal maxVal step : ℚ) (hstep : 0 < step)
    (x : ℚ) :
    x ∈ enumValues minVal maxVal step ↔
      ∃ k : ℕ, x = minVal + k * step ∧ x ≤ maxVal := by
  rw [enumValues, dif_pos hstep]
  induction minVal using enumFrom.induct maxVal step hstep with
  | case1 current hc ih =>
    rw [enumFrom, dif_pos hc]
    simp only [List.mem_cons]
    constructor
    · rintro (rfl | hx)
      · exact ⟨0, by ring, hc⟩
      · obtain ⟨k, hk, hle⟩ := ih.mp hx
        exact ⟨k + 1, by push_cast [hk]; ring, hle⟩
    · rintro ⟨k, hk, hle⟩
      cases k with
      | zero =>
        left
        rw [hk]
        push_cast
        ring
      | succ k =>
        right
        refine ih.mpr ⟨k, ?_, hle⟩
        rw [hk]
        push_cast
        ring
  | case2 current hc =>
    rw [enumFrom, dif_neg hc]
    simp only [List.not_mem_nil, false_iff, not_exists, not_and]
    intro k hk
    push_neg at hc
    intro hle
    have hk0 : current ≤ x := by
      rw [hk]
      have : (0 : ℚ) ≤ (k : ℚ) * step := mul_nonneg (by positivity) hstep.le
      linarith
    linarith

/-- Witness for C4's amended theorem at min 0, max 10, step 3, value 6. -/
theorem sweep_values_characterization_witness :
    (0 : ℚ) < 3 ∧ ((6 : ℚ) ∈ enumValues 0 10 3 ↔
      ∃ k : ℕ, (6 : ℚ) = 0 + k * 3 ∧ (6 : ℚ) ≤ 10) :=
  ⟨by norm_num, sweep_values_characterization 0 10 3 (by norm_num) 6⟩

/-! ### Claim C3: the calmar metric -/

unseal Rat.add Rat.mul Rat.inv Rat.sub in
/-- Counterexample to claim C3: on the strictly rising curve
`[100, 110, 121]` the maximum drawdown is 0 and the CAGR is positive, and
the code then returns the sentinel value 100 for calmar — not 0 as the
claim states.  (`powBase` stands in for the float power; the curve rises,
so any power function agreeing with the real one in sign gives a positive
CAGR, and the calmar branch depends only on that sign.) -/
theorem calmar_zero_drawdown_counterexample :
    (calculateMetricsFast powBase sqrtId [100, 110, 121] (3 / 252)).maxDrawdown = 0
    ∧ 0 < (calculateMetricsFast powBase sqrtId [100, 110, 121] (3 / 252)).cagr
    ∧ (calculateMetricsFast powBase sqrtId [100, 110, 121] (3 / 252)).calmar = 100 := by
  decide

/-- Claim C3 (amended): whenever the edge guards pass (at least two equity
values, at least two returns, positive year count), calmar equals
cagr / max_drawdown if max_drawdown > 0; when max_drawdown = 0 the code
returns 0 only if cagr ≤ 0, and the sentinel 100 if cagr > 0 — both in the
fused kernel `calculate_all_metrics_fast` and in the standalone
`calculate_calmar_ratio`. -/
theorem calmar_ratio_cases (powFn : ℚ → ℚ → ℚ) (sqrtFn : ℚ → ℚ)
    (values returns : List ℚ) (nYears periodsPerYear : ℚ)
    (h2 : 2 ≤ values.length) (hr : 2 ≤ returns.length) (hy : 0 < nYears) :
    ((calcAllMetricsFast powFn sqrtFn values returns nYears periodsPerYear).maxDrawdown ≠ 0 →
      (calcAllMetricsFast powFn sqrtFn values returns nYears periodsPerYear).calmar =
        (calcAllMetricsFast powFn sqrtFn values returns nYears periodsPerYear).cagr /
        (calcAllMetricsFast powFn sqrtFn values returns nYears periodsPerYear).maxDrawdown)
    ∧ ((calcAllMetricsFast powFn sqrtFn values returns nYears periodsPerYear).maxDrawdown = 0 →
      (calcAllMetricsFast powFn sqrtFn values returns nYears periodsPerYear).calmar =
        (if (calcAllMetricsFast powFn sqrtFn values returns nYears periodsPerYear).cagr ≤ 0
          then 0 else 100))
    ∧ (maxDrawdownOf values ≠ 0 →
      calcCalmarRatio powFn values nYears = calcCagr powFn values nYears / maxDrawdownOf values)
    ∧ (maxDrawdownOf values = 0 →
      calcCalmarRatio powFn values nYears =
        (if calcCagr powFn values nYears ≤ 0 then 0 else 100)) := by
  have hcond : ¬ (values.length < 2 ∨ returns.length < 2 ∨ nYears ≤ 0) := by
    push_neg
    exact ⟨h2, hr, hy⟩
  have hcond2 : ¬ (values.length < 2 ∨ nYears ≤ 0) := by
    push_neg
    exact ⟨h2, hy⟩
  unfold calcAllMetricsFast calcCalmarRatio
  rw [if_neg hcond, if_neg hcond2]
  refine ⟨?_, ?_, ?_, ?_⟩
  · intro hdd
    simp only at hdd ⊢
    rw [if_neg hdd]
  · intro hdd
    simp only at hdd ⊢
    rw [if_pos hdd]
  · intro hdd
    simp only
    rw [if_neg hdd]
  · intro hdd
    simp only
    rw [if_pos hdd]

/-- Witness for C3's amended theorem on a curve with positive drawdown. -/
theorem calmar_ratio_cases_witness :
    (2 ≤ ([100, 90, 121] : List ℚ).length
      ∧ 2 ≤ ([-1/10, 31/90] : List ℚ).length
      ∧ (0 : ℚ) < 3 / 252)
    ∧ ((calcAllMetricsFast powBase sqrtId [100, 90, 121] [-1/10, 31/90]
          (3 / 252) 252).maxDrawdown ≠ 0 →
        (calcAllMetricsFast powBase sqrtId [100, 90, 121] [-1/10, 31/90]
          (3 / 252) 252).calmar =
          (calcAllMetricsFast powBase sqrtId [100, 90, 121] [-1/10, 31/90]
            (3 / 252) 252).cagr /
          (calcAllMetricsFast powBase sqrtId [100, 90, 121] [-1/10, 31/90]
            (3 / 252) 252).maxDrawdown) :=
  ⟨⟨by decide, by decide, by norm_num⟩,
   (calmar_ratio_cases powBase sqrtId [100, 90, 121] [-1/10, 31/90] (3 / 252) 252
     (by decide) (by decide) (by norm_num)).1⟩

/-! ### Claim C10: indicator cache behavior -/

theorem dictSet_length_of_lookup_none {β : Type} (m : List (Ticker × β))
    (k : Ticker) (v : β) (h : m.lookup k = none) :
    (dictSet m k v).length = m.length + 1 := by
  induction m with
  | nil => rfl
  | cons p rest ih =>
    rw [lookup_cons_pair] at h
    by_cases hk : k = p.1
    · rw [if_pos hk] at h
      cases h
    · rw [if_neg hk] at h
      have hp : ¬ p.1 = k := fun hh => hk hh.symm
      rw [dictSet, if_neg hp]
      simp [ih h]

theorem getIndicator_maxSize (sqrtFn : ℚ → ℚ) (c : ICache) (t ind : String)
    (p : Int) (pr : List ℚ) :
    ((getIndicator sqrtFn c t ind p pr).2).maxCacheSize = c.maxCacheSize := by
  unfold getIndicator
  rcases hl : c.cache.lookup (cacheKey t ind p) with _ | v
  · simp only [hl]
    by_cases hlen : c.cache.length < c.maxCacheSize <;> simp [hlen]
  · simp [hl]

theorem getIndicator_length_le (sqrtFn : ℚ → ℚ) (c : ICache) (t ind : String)
    (p : Int) (pr : List ℚ) (h : c.cache.length ≤ c.maxCacheSize) :
    ((getIndicator sqrtFn c t ind p pr).2).cache.length ≤ c.maxCacheSize := by
  unfold getIndicator
  rcases hl : c.cache.lookup (cacheKey t ind p) with _ | v
  · simp only [hl]
    by_cases hlen : c.cache.length < c.maxCacheSize
    · simp only [hlen, if_pos]
      rw [dictSet_length_of_lookup_none c.cache _ _ hl]
      simpa using hlen
    · simp [hlen, h]
  · simp [hl, h]

theorem getIndicator_lookup_mono (sqrtFn : ℚ → ℚ) (c : ICache) (t ind : String)
    (p : Int) (pr : List ℚ) (k : String) (v : List ℚ)
    (h : c.cache.lookup k = some v) :
    ((getIndicator sqrtFn c t ind p pr).2).cache.lookup k = some v := by
  unfold getIndicator
  rcases hl : c.cache.lookup (cacheKey t ind p) with _ | w
  · simp only [hl]
    by_cases hlen : c.cache.length < c.maxCacheSize
    · have hk : ¬ k = cacheKey t ind p := fun he => by
        rw [he, hl] at h
        cases h
      simp [hlen, lookup_dictSet, hk, h]
    · simp [hlen, h]
  · simp [hl, h]

theorem runCalls_inv (sqrtFn : ℚ → ℚ) (calls : List ICall) (c : ICache)
    (h : c.cache.length ≤ c.maxCacheSize) :
    (runCalls sqrtFn c calls).maxCacheSize = c.maxCacheSize
    ∧ (runCalls sqrtFn c calls).cache.length ≤ c.maxCacheSize := by
  induction calls generalizing c with
  | nil => exact ⟨rfl, h⟩
  | cons call rest ih =>
    rw [runCalls]
    have hms := getIndicator_maxSize sqrtFn c call.ticker call.indicator call.period call.prices
    have hle := getIndicator_length_le sqrtFn c call.ticker call.indicator call.period call.prices h
    have hstep : ((getIndicator sqrtFn c call.ticker call.indicator call.period call.prices).2).cache.length
        ≤ ((getIndicator sqrtFn c call.ticker call.indicator call.period call.prices).2).maxCacheSize := by
      rw [hms]
      exact hle
    obtain ⟨ih1, ih2⟩ := ih _ hstep
    exact ⟨ih1.trans hms, by rw [← hms]; exact ih2⟩

theorem runCalls_lookup_mono (sqrtFn : ℚ → ℚ) (calls : List ICall) (c : ICache)
    (k : String) (v : List ℚ) (h : c.cache.lookup k = some v) :
    (runCalls sqrtFn c calls).cache.lookup k = some v := by
  induction calls generalizing c with
  | nil => exact h
  | cons call rest ih =>
    rw [runCalls]
    exact ih _ (getIndicator_lookup_mono sqrtFn c call.ticker call.indicator
      call.period call.prices k v h)

/-- Claim C10: over every sequence of `get_indicator` calls on a cache of
capacity `max_cache_size`, (1) the number of stored entries never exceeds
the capacity, (2) once the cache is full a request for an uncached key still
computes and returns the series but stores nothing (only the miss counter
changes), and (3) a stored entry is never removed or overwritten by further
calls — there is no LRU or FIFO eviction. -/
theorem indicator_cache_invariants (sqrtFn : ℚ → ℚ) (maxSize : Nat)
    (calls : List ICall) :
    (runCalls sqrtFn (ICache.init maxSize) calls).cache.length ≤ maxSize
    ∧ (∀ (c : ICache) (t ind : String) (p : Int) (pr : List ℚ),
        c.cache.length = c.maxCacheSize →
        c.cache.lookup (cacheKey t ind p) = none →
        getIndicator sqrtFn c t ind p pr =
          (calcDispatch sqrtFn ind p pr, { c with missCount := c.missCount + 1 }))
    ∧ (∀ (c : ICache) (calls2 : List ICall) (k : String) (v : List ℚ),
        c.cache.lookup k = some v →
        (runCalls sqrtFn c calls2).cache.lookup k = some v) := by
  refine ⟨(runCalls_inv sqrtFn calls (ICache.init maxSize) (by simp [ICache.init])).2,
    ?_, ?_⟩
  · intro c t ind p pr hfull hmiss
    unfold getIndicator
    simp only [hmiss]
    have hnl : ¬ c.cache.length < c.maxCacheSize := by omega
    simp [hnl]
  · intro c calls2 k v h
    exact runCalls_lookup_mono sqrtFn calls2 c k v h

/-- Witness for C10 at capacity 1: the second distinct key is computed but
not stored, and the first stored entry survives. -/
theorem indicator_cache_invariants_witness :
    ((runCalls sqrtId (ICache.init 1)
        [⟨"A", "Price", 1, [5]⟩, ⟨"B", "Price", 1, [7]⟩]).cache.length ≤ 1)
    ∧ (getIndicator sqrtId ⟨[("A:Price:1", [5])], 1, 0, 0⟩ "B" "Price" 1 [7] =
        ([7], { cache := [("A:Price:1", [5])], maxCacheSize := 1,
                hitCount := 0, missCount := 1 }))
    ∧ ((runCalls sqrtId ⟨[("A:Price:1", [5])], 1, 0, 0⟩ [⟨"B", "Price", 1, [7]⟩]).cache.lookup
        "A:Price:1" = some [5]) := by
  have h := indicator_cache_invariants sqrtId 1
    [⟨"A", "Price", 1, [5]⟩, ⟨"B", "Price", 1, [7]⟩]
  refine ⟨h.1, ?_, ?_⟩
  · have h2 := h.2.1 ⟨[("A:Price:1", [5])], 1, 0, 0⟩ "B" "Price" 1 [7]
      (by decide) (by decide)
    rw [h2]
    decide
  · exact h.2.2 ⟨[("A:Price:1", [5])], 1, 0, 0⟩ [⟨"B", "Price", 1, [7]⟩]
      "A:Price:1" [5] (by decide)

/-! ### Claim C6: condition list composition -/

/-- Loop invariant for `_eval_conditions`: with an open AND-group `g`
(whose conjunction is the loop's `current_and`) and completed OR-terms
`orTerms`, the loop computes the claimed grouped disjunction unless some
condition yields a null result. -/
theorem evalCondLoop_claim (db : Db) (idx : Nat) (conds : List Cond)
    (h : ∀ c ∈ conds, c.ctype.getD "if" = "if" ∨ c.ctype.getD "if" = "and"
      ∨ c.ctype.getD "if" = "or") :
    ∀ (g : Option (List Bool)) (orTerms : List Bool),
    evalCondLoop db idx conds (g.map (fun l => l.all id)) orTerms =
      if (conds.map (fun c => evalCondition db idx c)).any (fun r => r.isNone) then false
      else (orTerms ++
        (claimGroupsGo
          (conds.map (fun c => (c.ctype.getD "if", (evalCondition db idx c).getD false)))
          g).map (fun l => l.all id)).any id := by
  induction conds with
  | nil =>
    intro g orTerms
    cases g <;> simp [evalCondLoop, claimGroupsGo, pushOpt, pushGroup]
  | cons c rest ih =>
    intro g orTerms
    have hc := h c (List.mem_cons_self c rest)
    have hrest : ∀ c' ∈ rest, c'.ctype.getD "if" = "if" ∨ c'.ctype.getD "if" = "and"
        ∨ c'.ctype.getD "if" = "or" :=
      fun c' hc' => h c' (List.mem_cons_of_mem c hc')
    rcases he : evalCondition db idx c with _ | r
    · simp [evalCondLoop, he]
    · rw [List.map_cons, List.map_cons]
      rcases hc with ht | ht | ht
      · -- tag "if": close the open group, start a new one from this result
        rw [show evalCondLoop db idx (c :: rest) (g.map (fun l => l.all id)) orTerms
            = evalCondLoop db idx rest (some r)
              (orTerms ++ pushOpt (g.map (fun l => l.all id))) from by
          simp [evalCondLoop, he, ht]]
        have hr : (some r) = (some [r]).map (fun l => l.all id) := by simp
        rw [hr, ih hrest (some [r])]
        rw [he, ht]
        simp only [claimGroupsGo, if_pos rfl]
        cases g <;>
          simp [pushOpt, pushGroup, List.any_append, List.all_append, Bool.or_assoc]
      · -- tag "and": conjoin into the open group
        rw [show evalCondLoop db idx (c :: rest) (g.map (fun l => l.all id)) orTerms
            = evalCondLoop db idx rest
              (some (condAnd (g.map (fun l => l.all id)) r)) orTerms from by
          simp [evalCondLoop, he, ht]]
        have hr : (some (condAnd (g.map (fun l => l.all id)) r))
            = (some ((g.getD []) ++ [r])).map (fun l => l.all id) := by
          cases g <;> simp [condAnd, List.all_append]
        rw [hr, ih hrest (some ((g.getD []) ++ [r]))]
        rw [he, ht]
        simp only [claimGroupsGo]
        simp
      · -- tag "or": close the open group, start a new one from this result
        rw [show evalCondLoop db idx (c :: rest) (g.map (fun l => l.all id)) orTerms
            = evalCondLoop db idx rest (some r)
              (orTerms ++ pushOpt (g.map (fun l => l.all id))) from by
          simp [evalCondLoop, he, ht]]
        have hr : (some r) = (some [r]).map (fun l => l.all id) := by simp
        rw [hr, ih hrest (some [r])]
        rw [he, ht]
        simp only [claimGroupsGo]
        cases g <;>
          simp [pushOpt, pushGroup, List.any_append, List.all_append, Bool.or_assoc]

/-- Claim C6: for a condition list whose tags are all if/and/or, the value
of `_eval_conditions` is the disjunction of the left-to-right AND-groups —
a new group starts at each `if` and each `or`, each `and` conjoins into the
current group — and any null (missing-data) condition result makes the whole
list false, even when an already-completed OR-term was true. -/
theorem condition_composition (db : Db) (idx : Nat) (logic : String)
    (conds : List Cond)
    (h : ∀ c ∈ conds, (c.ctype.getD "if") ∈ (["if", "and", "or"] : List String)) :
    evalConditions db idx conds logic =
      claimCondEval (conds.map fun c => (c.ctype.getD "if", evalCondition db idx c)) := by
  have h' : ∀ c ∈ conds, c.ctype.getD "if" = "if" ∨ c.ctype.getD "if" = "and"
      ∨ c.ctype.getD "if" = "or" := by
    intro c hcm
    have := h c hcm
    simpa using this
  rw [evalConditions, claimCondEval]
  cases conds with
  | nil => simp [claimGroupsGo, pushGroup]
  | cons c rest =>
    have hl := evalCondLoop_claim db idx (c :: rest) h' none []
    simp only [Option.map_none'] at hl
    rw [if_neg (by simp)]
    rw [hl]
    simp [List.any_map, List.map_map, Function.comp_def]

/-- Witness for C6 on a two-condition list `if (close > 50) or (close < 50)`
over a one-bar panel with close 100. -/
theorem condition_composition_witness :
    (∀ c ∈ [({ ctype := some "if", metric := some "Price", threshold := some 50,
                comparator := some "gt" } : Cond),
             { ctype := some "or", metric := some "Price", threshold := some 50,
                comparator := some "lt" }],
      (c.ctype.getD "if") ∈ (["if", "and", "or"] : List String))
    ∧ evalConditions { dates := [0], close := [("SPY", [100])] } 0
        [{ ctype := some "if", metric := some "Price", threshold := some 50,
            comparator := some "gt" },
         { ctype := some "or", metric := some "Price", threshold := some 50,
            comparator := some "lt" }] "and" =
      claimCondEval
        (([{ ctype := some "if", metric := some "Price", threshold := some 50,
              comparator := some "gt" },
            { ctype := some "or", metric := some "Price", threshold := some 50,
              comparator := some "lt" }] : List Cond).map
          fun c => (c.ctype.getD "if",
            evalCondition { dates := [0], close := [("SPY", [100])] } 0 c)) :=
  ⟨by decide,
   condition_composition { dates := [0], close := [("SPY", [100])] } 0 "and" _
     (by decide)⟩

/-! ### Claim C5: scaling nodes -/

/-- Mathematical clamp to [0, 1]. -/
def clampQ (q : ℚ) : ℚ := max 0 (min 1 q)

/-- Claim C5's blend factor, from its words: the clamped normalized gauge
when the bounds differ (mirrored when reversed), and 0 when the gauge is
missing or the bounds coincide. -/
def claimBlend (v : Option QF) (fromV toV : ℚ) : ℚ :=
  if fromV = toV then 0
  else
    match v with
    | none => 0
    | some none => 0
    | some (some q) =>
      if fromV < toV then clampQ ((q - fromV) / (toV - fromV))
      else clampQ ((fromV - q) / (fromV - toV))

theorem pyClamp_eq (x : ℚ) : pyMax0 (pyMin1 (some x)) = clampQ x := by
  have h1 : pyMin1 (some x) = if x < 1 then x else 1 := rfl
  rw [h1]
  unfold pyMax0 clampQ
  rw [min_def, max_def]
  split_ifs <;> linarith

/-- The code's blend factor agrees with the claim's on every non-NaN
gauge. -/
theorem scalingBlend_eq_claim (v : Option QF) (fromV toV : ℚ)
    (hv : v ≠ some none) :
    scalingBlend v fromV toV = claimBlend v fromV toV := by
  rcases v with _ | vv
  · have h0 : scalingBlend none fromV toV = 0 := rfl
    have h1 : claimBlend none fromV toV = if fromV = toV then 0 else 0 := rfl
    rw [h0, h1]
    split_ifs <;> rfl
  · rcases vv with _ | q
    · exact absurd rfl hv
    · have hcode : scalingBlend (some (some q)) fromV toV
          = if fromV ≠ toV then
              if fromV < toV then
                pyMax0 (pyMin1 (qfDiv (qfSub (some q) (some fromV)) (some (toV - fromV))))
              else
                pyMax0 (pyMin1 (qfDiv (qfSub (some fromV) (some q)) (some (fromV - toV))))
            else 0 := rfl
      have hclaim : claimBlend (some (some q)) fromV toV
          = if fromV = toV then 0
            else if fromV < toV then clampQ ((q - fromV) / (toV - fromV))
            else clampQ ((fromV - q) / (fromV - toV)) := rfl
      rw [hcode, hclaim]
      by_cases he : fromV = toV
      · rw [if_neg (not_not.mpr he), if_pos he]
      · rw [if_pos he, if_neg he]
        by_cases hlt : fromV < toV
        · rw [if_pos hlt, if_pos hlt]
          have hne : toV - fromV ≠ 0 := fun hz => he (by linarith)
          have hdiv : qfDiv (qfSub (some q) (some fromV)) (some (toV - fromV))
              = some ((q - fromV) / (toV - fromV)) := by
            simp [qfSub, qfDiv, hne]
          rw [hdiv, pyClamp_eq]
        · rw [if_neg hlt, if_neg hlt]
          have hne : fromV - toV ≠ 0 := fun hz => he (by linarith)
          have hdiv : qfDiv (qfSub (some fromV) (some q)) (some (fromV - toV))
              = some ((fromV - q) / (fromV - toV)) := by
            simp [qfSub, qfDiv, hne]
          rw [hdiv, pyClamp_eq]

/-- Claim C5 (amended): the scaling node's output assigns every ticker the
weight `(1−b)·then_alloc + b·else_alloc` with `b` exactly as the claim
describes it (for a non-NaN gauge).  In particular, when `from == to` the
output agrees with `then_alloc` on every ticker's weight — but tickers only
present in `else_alloc` still appear with weight 0, so the two dicts are
not equal as dictionaries (see the counterexample). -/
theorem scaling_blend_pointwise (evalFn : EvalFn) (db : Db) (idx : Nat)
    (node : Node) (st : AState) (thenA elseA : Alloc) (st1 : AState) (b : ℚ)
    (hv : metricAt db idx (pyTicker (node.data.scaleTicker.getD "SPY"))
        (node.data.scaleMetric.getD "Relative Strength Index")
        (node.data.scaleWindow.getD 14) ≠ some none)
    (hthen : evalChildrenWith evalFn node "then" (childSlot node "then") st
      = (thenA, st1))
    (helse : (evalChildrenWith evalFn node "else" (childSlot node "else") st1).1
      = elseA)
    (hnodupT : (thenA.map Prod.fst).Nodup) (hnodupE : (elseA.map Prod.fst).Nodup)
    (hb : b = claimBlend
      (metricAt db idx (pyTicker (node.data.scaleTicker.getD "SPY"))
        (node.data.scaleMetric.getD "Relative Strength Index")
        (node.data.scaleWindow.getD 14))
      (node.data.scaleFrom.getD 0) (node.data.scaleTo.getD 100))
    (t : Ticker) :
    dictGet (evalScalingWith evalFn db idx node st).1 t
      = (1 - b) * dictGet thenA t + b * dictGet elseA t := by
  simp only [evalScalingWith]
  rw [hthen]
  simp only
  rw [helse]
  rw [scalingBlend_eq_claim _ _ _ hv, ← hb]
  rw [dictGet_scale_fold elseA _ b t hnodupE,
    dictGet_scale_fold thenA [] (1 - b) t hnodupT]
  simp only [dictGet, List.lookup_nil, Option.getD_none]
  ring

/-- A bare `position` node over the given tickers (test fixture). -/
def posNode (ps : List String) : Node :=
  Node.mk { kind := some "position", positions := ps } []

/-- A scaling node gauged on the raw SPY close ("Price" falls through the
indicator dispatch to the price series), with `then` = SPY, `else` = BIL
(test fixture). -/
def scalingNode (fromV toV : ℚ) : Node :=
  Node.mk
    { kind := some "scaling", scaleMetric := some "Price",
      scaleFrom := some fromV, scaleTo := some toV }
    [("then", [some (posNode ["SPY"])]), ("else", [some (posNode ["BIL"])])]

/-- One-bar panel with SPY close 50 (test fixture). -/
def dbOneBar : Db := { dates := [0], close := [("SPY", [50])] }

/-- One-bar panel with no price data (test fixture). -/
def dbNoTickers : Db := { dates := [0], close := [] }

unseal Rat.add Rat.mul Rat.inv Rat.sub in
/-- Counterexample to claim C5: with `from == to` the blend is 0, but the
node's output is not equal (as a dict) to `then_alloc` — the else-branch
ticker appears with weight 0: the output is `{SPY: 1.0, BIL: 0.0}` while
`then_alloc` is `{SPY: 1.0}`. -/
theorem scaling_from_eq_to_counterexample :
    (evalNode dbNoTickers 0 2 [] (scalingNode 30 30)).1 = [("SPY", 1), ("BIL", 0)]
    ∧ dictBeq (evalNode dbNoTickers 0 2 [] (scalingNode 30 30)).1 [("SPY", 1)] = false := by
  decide

unseal Rat.add Rat.mul Rat.inv Rat.sub in
/-- Witness for C5's amended theorem: gauge 50 between bounds 30 and 70
gives b = 1/2, and the BIL weight of the blended output is
`(1 − 1/2)·0 + (1/2)·1`. -/
theorem scaling_blend_pointwise_witness :
    (metricAt dbOneBar 0
        (pyTicker ((scalingNode 30 70).data.scaleTicker.getD "SPY"))
        ((scalingNode 30 70).data.scaleMetric.getD "Relative Strength Index")
        ((scalingNode 30 70).data.scaleWindow.getD 14) ≠ some none)
    ∧ dictGet (evalScalingWith (evalNode dbOneBar 0 1) dbOneBar 0 (scalingNode 30 70) []).1 "BIL"
      = (1 - 1/2) * dictGet [("SPY", 1)] "BIL" + (1/2) * dictGet [("BIL", 1)] "BIL" :=
  ⟨by decide,
   scaling_blend_pointwise (evalNode dbOneBar 0 1) dbOneBar 0 (scalingNode 30 70)
     [] [("SPY", 1)] [("BIL", 1)] [] (1/2)
     (by decide) (by decide) (by decide) (by decide) (by decide) (by decide) "BIL"⟩

/-! ### Claim C1: altExit state persistence across bars -/

/-- A three-bar panel on which an `altExit` gate's entry condition holds at
bar 0 only (close 100 > 60, then 50) (test fixture). -/
def dbGate : Db := { dates := [0, 1, 2], close := [("SPY", [100, 50, 50])] }

/-- An `altExit` gate: enter when close > 60, no exit conditions, `then`
holds SPY, `else` is empty (test fixture). -/
def gateNode : Node :=
  Node.mk
    { kind := some "altExit", nid := some "gate",
      entryConditions :=
        [{ ctype := some "if", metric := some "Price", threshold := some 60,
           comparator := some "gt" }] }
    [("then", [some (posNode ["SPY"])]), ("else", [])]

unseal Rat.add Rat.mul Rat.inv Rat.sub in
/-- Claim C1 is right and the code is wrong: `evaluate_tree` builds a fresh
context — `'altExit_state': {}` — on every bar, so the entered/not-entered
boolean written at bar i is never read at bar i+1.  On the fixture, the gate
enters at bar 0 (first conjunct: the simulated allocations are
`[{SPY: 1}, {}, {}]`, i.e. the gate is back in the `else` branch from bar 1
although no exit condition ever held); the second conjunct shows bar 0's
evaluation does write `true` under the node id; the third shows that reading
that state at bar 1 — what the claim (and the spec) require — would keep the
`then` branch. -/
theorem altExit_state_not_persisted_bug :
    (simulate dbGate 5 gateNode "CC" 0).2 = [[("SPY", 1)], [], []]
    ∧ (evalNode dbGate 0 5 [] gateNode).2 = [("gate", true)]
    ∧ (evalNode dbGate 1 5 [("gate", true)] gateNode).1 = [("SPY", 1)] := by
  decide

/-! ### Claim C7: equity equals mark-to-market of holdings -/

/-- The claim's sum: `sum over t of holdings[t] * close[t][i]`. -/
def holdingsValue (close : List (Ticker × List ℚ)) (holdings : List (Ticker × ℚ))
    (i : Nat) : ℚ :=
  (holdings.map (fun p => p.2 * ((close.lookup p.1).getD []).getD i 0)).sum

/-- Every held ticker has price data — an invariant of the simulator, since
the rebalance loop only ever creates holdings for tickers with a price. -/
def goodHoldings (close : List (Ticker × List ℚ)) (h : List (Ticker × ℚ)) : Prop :=
  ∀ p ∈ h, ∃ prices, close.lookup p.1 = some prices

theorem mtm_eq_holdingsValue (close : List (Ticker × List ℚ))
    (holdings : List (Ticker × ℚ)) (i : Nat)
    (hmem : ∀ p ∈ holdings, ∃ prices, close.lookup p.1 = some prices
      ∧ i < prices.length) :
    mtm close holdings i = holdingsValue close holdings i := by
  have key : ∀ (hs : List (Ticker × ℚ)),
      (∀ p ∈ hs, ∃ prices, close.lookup p.1 = some prices ∧ i < prices.length) →
      ∀ (acc : ℚ),
      hs.foldl (fun acc p =>
        match close.lookup p.1 with
        | some prices => if i < prices.length then acc + p.2 * prices.getD i 0 else acc
        | none => acc) acc = acc + holdingsValue close hs i := by
    intro hs
    induction hs with
    | nil =>
      intro _ acc
      simp [holdingsValue]
    | cons p rest ih =>
      intro hm acc
      obtain ⟨prices, hp, hi⟩ := hm p (List.mem_cons_self p rest)
      rw [List.foldl_cons]
      rw [show (match close.lookup p.1 with
          | some prices => if i < prices.length then acc + p.2 * prices.getD i 0 else acc
          | none => acc) = acc + p.2 * prices.getD i 0 from by rw [hp]; simp [hi]]
      rw [ih (fun q hq => hm q (List.mem_cons_of_mem p hq)) _]
      simp only [holdingsValue, List.map_cons, List.sum_cons, hp]
      simp only [Option.getD_some]
      ring
  rw [mtm, key holdings hmem 0, zero_add]

theorem mem_dictSet {β : Type} (m : List (Ticker × β)) (k : Ticker) (v : β)
    (q : Ticker × β) (hq : q ∈ dictSet m k v) : q ∈ m ∨ q.1 = k := by
  induction m with
  | nil =>
    rw [dictSet] at hq
    rcases List.mem_singleton.mp hq with rfl
    exact Or.inr rfl
  | cons p rest ih =>
    rw [dictSet] at hq
    by_cases hp : p.1 = k
    · rw [if_pos hp] at hq
      rcases List.mem_cons.mp hq with h1 | h2
      · right
        rw [h1, ← hp]
      · exact Or.inl (List.mem_cons_of_mem p h2)
    · rw [if_neg hp] at hq
      rcases List.mem_cons.mp hq with h1 | h2
      · exact Or.inl (h1 ▸ List.mem_cons_self p rest)
      · rcases ih h2 with h | h
        · exact Or.inl (List.mem_cons_of_mem p h)
        · exact Or.inr h

/-- The dict built by the rebalance loop only holds tickers with price
data. -/
theorem rebalance_good (close : List (Ticker × List ℚ)) (allocation : Alloc)
    (currentEquity costMultiplier : ℚ) (i : Nat) :
    ∀ q ∈ allocation.foldl (fun nh p =>
      match close.lookup p.1 with
      | some prices =>
        if i < prices.length then
          let currentPrice := prices.getD i 0
          if currentPrice > 0 then
            dictSet nh p.1 (currentEquity * p.2 * costMultiplier / currentPrice)
          else nh
        else nh
      | none => nh) [],
      ∃ prices, close.lookup q.1 = some prices := by
  have key : ∀ (al : Alloc) (start : List (Ticker × ℚ)),
      (∀ q ∈ start, ∃ prices, close.lookup q.1 = some prices) →
      ∀ q ∈ al.foldl (fun nh p =>
        match close.lookup p.1 with
        | some prices =>
          if i < prices.length then
            let currentPrice := prices.getD i 0
            if currentPrice > 0 then
              dictSet nh p.1 (currentEquity * p.2 * costMultiplier / currentPrice)
            else nh
          else nh
        | none => nh) start,
        ∃ prices, close.lookup q.1 = some prices := by
    intro al
    induction al with
    | nil => intro start hstart q hq; exact hstart q hq
    | cons p rest ih =>
      intro start hstart q hq
      rw [List.foldl_cons] at hq
      refine ih _ ?_ q hq
      intro r hr
      rcases hl : close.lookup p.1 with _ | prices
      · simp only [hl] at hr
        exact hstart r hr
      · simp only [hl] at hr
        by_cases hilen : i < prices.length
        · rw [if_pos hilen] at hr
          by_cases hpr : prices.getD i 0 > 0
          · simp only [if_pos hpr] at hr
            rcases mem_dictSet _ _ _ _ hr with h | h
            · exact hstart r h
            · exact ⟨prices, h ▸ hl⟩
          · simp only [if_neg hpr] at hr
            exact hstart r hr
        · rw [if_neg hilen] at hr
          exact hstart r hr
  exact key allocation [] (fun q hq => absurd hq (List.not_mem_nil q))

theorem simUpTo_succ (db : Db) (fuel : Nat) (tree : Node) (costBps : ℚ) (n : Nat) :
    simUpTo db fuel tree costBps (n + 1)
      = simStep db fuel tree (1 - costBps / 10000) (simUpTo db fuel tree costBps n) n := by
  simp [simUpTo, List.range_succ]

theorem simUpTo_good (db : Db) (fuel : Nat) (tree : Node) (costBps : ℚ) :
    ∀ n, goodHoldings db.close (simUpTo db fuel tree costBps n).holdings := by
  intro n
  induction n with
  | zero =>
    intro p hp
    simp [simUpTo, simInit] at hp
  | succ n ih =>
    rw [simUpTo_succ]
    intro q hq
    simp only [simStep] at hq
    split at hq
    · exact rebalance_good db.close _ _ _ _ q hq
    · exact ih q hq

/-- One-step form of the mark-to-market identity. -/
theorem simStep_equity (db : Db) (fuel : Nat) (tree : Node) (cm : ℚ)
    (s : SimState) (i : Nat)
    (hne : ¬ (simStep db fuel tree cm s i).holdings.isEmpty)
    (hmem : ∀ p ∈ (simStep db fuel tree cm s i).holdings,
      ∃ prices, db.close.lookup p.1 = some prices ∧ i < prices.length) :
    (simStep db fuel tree cm s i).equityCurve.getLast?
      = some (db.dates.getD i 0,
          holdingsValue db.close (simStep db fuel tree cm s i).holdings i) := by
  have hcurve : (simStep db fuel tree cm s i).equityCurve
      = s.equityCurve ++ [(db.dates.getD i 0,
          if ¬ (simStep db fuel tree cm s i).holdings.isEmpty
          then mtm db.close (simStep db fuel tree cm s i).holdings i
          else (if ¬ s.holdings.isEmpty ∧ mtm db.close s.holdings i > 0
            then mtm db.close s.holdings i else s.equity))] := rfl
  rw [hcurve, List.getLast?_concat, if_pos hne,
    mtm_eq_holdingsValue db.close _ i hmem]

/-- Claim C7: for every simulation and bar index i, whenever the holdings
map is non-empty after the bar's (possible) rebalance, the equity value
appended to the equity curve at bar i equals the sum over all held tickers
of share count times the bar-i close price (assuming the panel invariant
that every close array has one entry per date). -/
theorem equity_mark_to_market (db : Db) (fuel : Nat) (tree : Node)
    (costBps : ℚ) (i : Nat)
    (hlen : ∀ p ∈ db.close, p.2.length = db.dates.length)
    (hi : i < db.dates.length)
    (hne : ¬ (simUpTo db fuel tree costBps (i + 1)).holdings.isEmpty) :
    (simUpTo db fuel tree costBps (i + 1)).equityCurve.getLast?
      = some (db.dates.getD i 0,
          holdingsValue db.close (simUpTo db fuel tree costBps (i + 1)).holdings i) := by
  have hgood := simUpTo_good db fuel tree costBps (i + 1)
  have hmem : ∀ p ∈ (simUpTo db fuel tree costBps (i + 1)).holdings,
      ∃ prices, db.close.lookup p.1 = some prices ∧ i < prices.length := by
    intro p hp
    obtain ⟨prices, hpr⟩ := hgood p hp
    have hm := lookup_some_mem db.close p.1 prices hpr
    have hlp := hlen (p.1, prices) hm
    exact ⟨prices, hpr, by rw [hlp]; exact hi⟩
  rw [simUpTo_succ] at hne hmem ⊢
  exact simStep_equity db fuel tree (1 - costBps / 10000)
    (simUpTo db fuel tree costBps i) i hne hmem

unseal Rat.add Rat.mul Rat.inv Rat.sub in
/-- Witness for C7: buy-and-hold SPY over a two-bar panel; after bar 0 the
holdings are 100 shares and the appended equity is 100 · 100. -/
theorem equity_mark_to_market_witness :
    ((∀ p ∈ ({ dates := [0, 1], close := [("SPY", [100, 101])] } : Db).close,
        p.2.length = ({ dates := [0, 1], close := [("SPY", [100, 101])] } : Db).dates.length)
      ∧ 0 < ({ dates := [0, 1], close := [("SPY", [100, 101])] } : Db).dates.length
      ∧ ¬ (simUpTo { dates := [0, 1], close := [("SPY", [100, 101])] } 1
            (posNode ["SPY"]) 0 1).holdings.isEmpty)
    ∧ (simUpTo { dates := [0, 1], close := [("SPY", [100, 101])] } 1
        (posNode ["SPY"]) 0 1).equityCurve.getLast?
      = some (({ dates := [0, 1], close := [("SPY", [100, 101])] } : Db).dates.getD 0 0,
          holdingsValue ({ dates := [0, 1], close := [("SPY", [100, 101])] } : Db).close
            (simUpTo { dates := [0, 1], close := [("SPY", [100, 101])] } 1
              (posNode ["SPY"]) 0 1).holdings 0) :=
  ⟨⟨by decide, by decide, by decide⟩,
   equity_mark_to_market { dates := [0, 1], close := [("SPY", [100, 101])] } 1
     (posNode ["SPY"]) 0 0 (by decide) (by decide) (by decide)⟩

/-! ### Claim C9: restricting to all indices reproduces the full metrics -/

theorem filterMap_range_get {α : Type} (l : List α) (n : Nat) :
    (List.range n).filterMap (fun i => l[i]?) = l.take n := by
  induction n with
  | zero => simp
  | succ n ih =>
    rw [List.range_succ, List.filterMap_append, ih, List.take_succ]
    rcases h : l[n]? with _ | a <;> simp [h]

theorem sliceList_range_self {α : Type} (l : List α) :
    sliceList l (List.range l.length) = l := by
  rw [sliceList]
  simp only [List.get?_eq_getElem?]
  rw [filterMap_range_get, List.take_length]

theorem spySubsetOf_range (spy : List ℚ) (n : Nat) :
    spySubsetOf spy n (some (List.range n)) = spySubsetOf spy n none := by
  show (List.range n).filterMap (fun i => spy.get? i) = spy.take n
  simp only [List.get?_eq_getElem?]
  rw [filterMap_range_get]

/-- Claim C9: slicing a completed simulation's equity curve and allocation
list at the full index set `[0, T)` and computing the metric record with
that explicit restriction yields exactly the record computed on the full
curve with no restriction — field for field, for every choice of the power
and square-root functions. -/
theorem metrics_full_slice_eq (powFn : ℚ → ℚ → ℚ) (sqrtFn : ℚ → ℚ)
    (equityCurve : List (Int × ℚ)) (db : Db) (mode : String)
    (allocations : List Alloc) (hlen : allocations.length = equityCurve.length) :
    calculateMetrics powFn sqrtFn (sliceList equityCurve (List.range equityCurve.length))
      db mode (some (List.range equityCurve.length))
      (some (sliceList allocations (List.range equityCurve.length)))
    = calculateMetrics powFn sqrtFn equityCurve db mode none (some allocations) := by
  rw [sliceList_range_self]
  rw [show sliceList allocations (List.range equityCurve.length) = allocations from by
    rw [← hlen, sliceList_range_self]]
  simp only [calculateMetrics, List.length_map]
  simp only [spySubsetOf_range]

/-- Witness for C9 at a concrete three-bar curve. -/
theorem metrics_full_slice_eq_witness :
    (([[("SPY", 1)], [("SPY", 1)], []] : List Alloc).length
        = ([((0 : Int), (100 : ℚ)), (1, 110), (2, 105)] : List (Int × ℚ)).length)
    ∧ calculateMetrics powBase sqrtId
        (sliceList [((0 : Int), (100 : ℚ)), (1, 110), (2, 105)]
          (List.range ([((0 : Int), (100 : ℚ)), (1, 110), (2, 105)] : List (Int × ℚ)).length))
        { dates := [0, 1, 2], close := [("SPY", [100, 110, 105])] } "CC"
        (some (List.range ([((0 : Int), (100 : ℚ)), (1, 110), (2, 105)] : List (Int × ℚ)).length))
        (some (sliceList [[("SPY", 1)], [("SPY", 1)], []]
          (List.range ([((0 : Int), (100 : ℚ)), (1, 110), (2, 105)] : List (Int × ℚ)).length)))
      = calculateMetrics powBase sqrtId [((0 : Int), (100 : ℚ)), (1, 110), (2, 105)]
        { dates := [0, 1, 2], close := [("SPY", [100, 110, 105])] } "CC"
        none (some [[("SPY", 1)], [("SPY", 1)], []]) :=
  ⟨rfl,
   metrics_full_slice_eq powBase sqrtId [((0 : Int), (100 : ℚ)), (1, 110), (2, 105)]
     { dates := [0, 1, 2], close := [("SPY", [100, 110, 105])] } "CC"
     [[("SPY", 1)], [("SPY", 1)], []] rfl⟩

/-! ### Claim C2: win rate under slicing -/

/-- Claim C2's described win rate, from its words: among bars of S with a
non-empty allocation, the fraction whose next-bar return taken from the
full (unrestricted) equity curve — bar i to bar i+1 of the full curve — is
positive. -/
def claimWinRateFullReturns (values : List ℚ) (allocs : List Alloc)
    (S : List Nat) : ℚ :=
  let invested := S.filter (fun i => ¬ (allocs.getD i []).isEmpty)
  let rets := invested.filterMap (fun i =>
    if i + 1 < values.length then
      some ((values.getD (i + 1) 0 - values.getD i 0) / values.getD i 0)
    else none)
  if rets.length > 0 then ((rets.filter (fun r => r > 0)).length : ℚ) / rets.length
  else 0

unseal Rat.add Rat.mul Rat.inv Rat.sub in
/-- Counterexample to claim C2: full curve `[100, 90, 120]`, every bar
invested, restriction S = {0, 2}.  The code computes the restricted record
from the sliced curve `[100, 120]`, so the one usable invested bar has
slice-consecutive return `+20%` and the win rate is 1; under the claim's
reading (full-curve return from bar 0 to bar 1, i.e. −10%) it would be 0. -/
theorem win_rate_slice_counterexample :
    (calculateMetrics powBase sqrtId
        (sliceList [((0 : Int), (100 : ℚ)), (1, 90), (2, 120)] [0, 2])
        { dates := [0, 1, 2], close := [] } "CC" (some [0, 2])
        (some (sliceList [[("X", 1)], [("X", 1)], [("X", 1)]] [0, 2]))).winRate = 1
    ∧ claimWinRateFullReturns [100, 90, 120]
        [[("X", 1)], [("X", 1)], [("X", 1)]] [0, 2] = 0 := by
  decide

/-- Claim C2 as amended: the restricted win rate is computed from the
invested bars of the restricted curve `values[S]` using next-bar returns
within the slice (consecutive slice elements); the slice's last invested
position is skipped. -/
def specSliceWinRate (curve : List (Int × ℚ)) (allocs : List Alloc)
    (S : List Nat) : ℚ :=
  let sv := (sliceList curve S).map Prod.snd
  let sa := sliceList allocs S
  let considered := ((List.range sa.length).filter
    (fun j => ¬ (sa.getD j []).isEmpty)).filter (fun j => j + 1 < sv.length)
  if considered.length > 0 then
    ((considered.filter (fun j => sv.getD j 0 < sv.getD (j + 1) 0)).length : ℚ)
      / considered.length
  else 0

theorem filterMap_ite_eq_map_filter {α β : Type} (l : List α) (p : α → Prop)
    [DecidablePred p] (g : α → β) :
    l.filterMap (fun a => if p a then some (g a) else none)
      = (l.filter (fun a => decide (p a))).map g := by
  induction l with
  | nil => rfl
  | cons a rest ih => by_cases h : p a <;> simp [h, ih]

theorem mem_of_mem_sliceList {α : Type} (xs : List α) (S : List Nat) (x : α)
    (hx : x ∈ sliceList xs S) : x ∈ xs := by
  rw [sliceList] at hx
  obtain ⟨i, _, hget⟩ := List.mem_filterMap.mp hx
  exact List.get?_mem hget

theorem sub_div_pos_iff (a b : ℚ) (ha : 0 < a) : 0 < (b - a) / a ↔ a < b := by
  rw [div_pos_iff]
  constructor
  · rintro (⟨h1, _⟩ | ⟨_, h2⟩) <;> linarith
  · intro h
    exact Or.inl ⟨by linarith, ha⟩

/-- A restriction containing an in-range index never slices to nothing. -/
theorem sliceList_ne_nil {α : Type} (xs : List α) (S : List Nat) (i : Nat)
    (hi : i ∈ S) (hlt : i < xs.length) : sliceList xs S ≠ [] := by
  intro hnil
  rw [sliceList] at hnil
  have hall := List.filterMap_eq_nil.mp hnil i hi
  have hle := List.get?_eq_none.mp hall
  omega

/-- Claim C2 (amended): for a curve with positive equity values, whenever
the restricted record is actually produced — the program computes it only
behind `run_backtest`'s `if is_indices:` guard, with indices drawn from
`enumerate`, so S is non-empty and in range of the per-bar allocation list,
which itself has one entry per bar — its win_rate equals the fraction,
among the invested positions of the restricted curve `values[S]` that still
have a successor inside the slice, whose slice-consecutive value increases:
the returns are taken within the slice, not from the full curve. -/
theorem win_rate_uses_slice_returns (powFn : ℚ → ℚ → ℚ) (sqrtFn : ℚ → ℚ)
    (curve : List (Int × ℚ)) (db : Db) (mode : String) (allocs : List Alloc)
    (S : List Nat) (hpos : ∀ p ∈ curve, 0 < p.2) (hS : S ≠ [])
    (hbound : ∀ i ∈ S, i < allocs.length)
    (hlen : allocs.length = curve.length) :
    (calculateMetrics powFn sqrtFn (sliceList curve S) db mode (some S)
      (some (sliceList allocs S))).winRate = specSliceWinRate curve allocs S := by
  have hposv : ∀ v ∈ (sliceList curve S).map Prod.snd, 0 < v := by
    intro v hv
    obtain ⟨p, hp, hpe⟩ := List.mem_map.mp hv
    exact hpe ▸ hpos p (mem_of_mem_sliceList curve S p hp)
  have hex : ∃ i, i ∈ S := by
    cases S with
    | nil => exact absurd rfl hS
    | cons a t => exact ⟨a, List.mem_cons_self a t⟩
  obtain ⟨i0, hi0⟩ := hex
  have hia : i0 < allocs.length := hbound i0 hi0
  have hic : i0 < curve.length := hlen ▸ hia
  have hane : sliceList allocs S ≠ [] := sliceList_ne_nil allocs S i0 hi0 hia
  have hcne : sliceList curve S ≠ [] := sliceList_ne_nil curve S i0 hi0 hic
  have hsc : ¬ (sliceList curve S).isEmpty = true := by
    simp [List.isEmpty_iff, hcne]
  have hsa : (sliceList allocs S).length > 0 := List.length_pos.mpr hane
  simp only [calculateMetrics, if_neg hsc, specSliceWinRate]
  rw [if_pos hsa]
  simp only [List.length_map]
  rw [filterMap_ite_eq_map_filter
    ((List.range (sliceList allocs S).length).filter
      (fun i => ¬ ((sliceList allocs S).getD i []).isEmpty))
    (fun idx => idx < (sliceList curve S).length - 1)
    (fun idx => (((sliceList curve S).map Prod.snd).getD (idx + 1) 0
      - ((sliceList curve S).map Prod.snd).getD idx 0)
      / ((sliceList curve S).map Prod.snd).getD idx 0)]
  have hfc : ((List.range (sliceList allocs S).length).filter
        (fun i => ¬ ((sliceList allocs S).getD i []).isEmpty)).filter
        (fun j => decide (j < (sliceList curve S).length - 1))
      = ((List.range (sliceList allocs S).length).filter
        (fun i => ¬ ((sliceList allocs S).getD i []).isEmpty)).filter
        (fun j => j + 1 < (sliceList curve S).length) := by
    apply List.filter_congr
    intro j _
    simp only [decide_eq_decide]
    omega
  rw [hfc]
  rw [List.filter_map]
  have hcmp : (((List.range (sliceList allocs S).length).filter
        (fun i => ¬ ((sliceList allocs S).getD i []).isEmpty)).filter
        (fun j => j + 1 < (sliceList curve S).length)).filter
        ((fun r => r > 0) ∘ (fun idx =>
          (((sliceList curve S).map Prod.snd).getD (idx + 1) 0
            - ((sliceList curve S).map Prod.snd).getD idx 0)
            / ((sliceList curve S).map Prod.snd).getD idx 0))
      = (((List.range (sliceList allocs S).length).filter
        (fun i => ¬ ((sliceList allocs S).getD i []).isEmpty)).filter
        (fun j => j + 1 < (sliceList curve S).length)).filter
        (fun j => ((sliceList curve S).map Prod.snd).getD j 0
          < ((sliceList curve S).map Prod.snd).getD (j + 1) 0) := by
    apply List.filter_congr
    intro j hj
    have hjlt : j + 1 < (sliceList curve S).length := by
      have hd := (List.mem_filter.mp hj).2
      exact of_decide_eq_true hd
    have hj0 : j < ((sliceList curve S).map Prod.snd).length := by
      rw [List.length_map]
      exact Nat.lt_of_succ_lt hjlt
    have hmemj : ((sliceList curve S).map Prod.snd).getD j 0
        ∈ (sliceList curve S).map Prod.snd := by
      rw [List.getD_eq_getElem _ _ hj0]
      exact List.getElem_mem hj0
    have hja := hposv _ hmemj
    simp only [Function.comp_apply, decide_eq_decide]
    rw [gt_iff_lt]
    exact sub_div_pos_iff _ _ hja
  rw [hcmp]
  simp only [List.length_map]

unseal Rat.add Rat.mul Rat.inv Rat.sub in
/-- Witness for C2's amended theorem on the counterexample fixture: both
sides evaluate to win rate 1. -/
theorem win_rate_uses_slice_returns_witness :
    (∀ p ∈ ([((0 : Int), (100 : ℚ)), (1, 90), (2, 120)] : List (Int × ℚ)), 0 < p.2)
    ∧ ([0, 2] : List Nat) ≠ []
    ∧ (∀ i ∈ ([0, 2] : List Nat),
        i < ([[("X", (1 : ℚ))], [("X", 1)], [("X", 1)]] : List Alloc).length)
    ∧ ([[("X", (1 : ℚ))], [("X", 1)], [("X", 1)]] : List Alloc).length
        = ([((0 : Int), (100 : ℚ)), (1, 90), (2, 120)] : List (Int × ℚ)).length
    ∧ (calculateMetrics powBase sqrtId
        (sliceList [((0 : Int), (100 : ℚ)), (1, 90), (2, 120)] [0, 2])
        { dates := [0, 1, 2], close := [] } "CC" (some [0, 2])
        (some (sliceList [[("X", 1)], [("X", 1)], [("X", 1)]] [0, 2]))).winRate
      = specSliceWinRate [((0 : Int), (100 : ℚ)), (1, 90), (2, 120)]
          [[("X", 1)], [("X", 1)], [("X", 1)]] [0, 2] :=
  ⟨by decide, by decide, by decide, rfl,
   win_rate_uses_slice_returns powBase sqrtId
     [((0 : Int), (100 : ℚ)), (1, 90), (2, 120)]
     { dates := [0, 1, 2], close := [] } "CC"
     [[("X", 1)], [("X", 1)], [("X", 1)]] [0, 2] (by decide) (by decide)
     (by decide) rfl⟩

end QuantNexus
